import Mathlib

/-!
Verification of the openclaw repository's specification against its code.

The development has two parts:

* Shallow embeddings of the pure logic of the source files present in the
  repository: the LLM slug sanitizer (`src/hooks/llm-slug-generator.ts`), the
  Ollama-aware stream-function selection
  (`src/agents/pi-embedded-runner/ollama-stream.ts`), and the Matrix room-info
  resolver cache (`extensions/matrix/src/matrix/monitor/room-info.ts`).

* A model of the gateway self-update orchestrator (`runGatewayUpdate` in
  `update-runner.ts`).  The orchestrator's implementation file is not part of
  the source tree (only its test is), so the orchestrator is modelled from the
  specification, constrained by the concrete command vocabulary and observable
  behaviour exercised by the test `update-runner (control-ui restore)`.

Strings are manipulated through structural helpers over `List Char` so that
every definition evaluates by `decide` on concrete inputs.
-/

namespace OpenClaw

/-! ## Structural string helpers

These replace the byte-position based `String` primitives with structurally
recursive functions over `List Char`, so that concrete runs reduce inside the
kernel. -/

/-- Whitespace characters recognised by trimming (space, newline, tab, CR). -/
def isWS (c : Char) : Bool := c = ' ' || c = '\n' || c = '\t' || c = '\r'

/-- Trim leading and trailing whitespace, structurally. -/
def strTrim (s : String) : String :=
  String.mk (((s.data.dropWhile isWS).reverse.dropWhile isWS).reverse)

/-- Split a character list at newline characters. -/
def splitLinesChars : List Char → List (List Char)
  | [] => [[]]
  | '\n' :: rest => [] :: splitLinesChars rest
  | c :: rest =>
    match splitLinesChars rest with
    | [] => [[c]]
    | l :: ls => (c :: l) :: ls

/-- Split a character list at the first colon, if any. -/
def splitColonChars : List Char → Option (List Char × List Char)
  | [] => none
  | c :: rest =>
    if c = ':' then some ([], rest)
    else
      match splitColonChars rest with
      | some (a, b) => some (c :: a, b)
      | none => none

/-- Split a string of the form `ref:path` into its two components. -/
def splitColon (s : String) : Option (String × String) :=
  match splitColonChars s.data with
  | some (a, b) => some (String.mk a, String.mk b)
  | none => none

/-- Whether the first list is a prefix of the second, as a boolean. -/
def listPrefixOf : List Char → List Char → Bool
  | [], _ => true
  | _ :: _, [] => false
  | a :: as, b :: bs => a = b && listPrefixOf as bs

/-! ## LLM slug generator (`src/hooks/llm-slug-generator.ts`)

`generateSlugViaLLM` asks an embedded agent for a 1-2 word slug and sanitizes
the reply with the chain: trim, then toLowerCase, then replace every character
outside `[a-z0-9-]` by a hyphen, then collapse each run of hyphens to one,
then strip one leading and one trailing hyphen, then slice to the first 30
characters; it returns `null` when the result is the empty string.  All failure paths of the effectful wrapper (no credentials, the
agent call throwing, no payload text) return `null`, so the effectful part is
modelled by an `Option String` input carrying the agent's reply text, if any.
-/

/-- Characters allowed in a slug: lowercase ASCII letters, digits, hyphen. -/
def isSlugChar (c : Char) : Bool :=
  ('a' ≤ c && c ≤ 'z') || ('0' ≤ c && c ≤ '9') || c = '-'

/-- The `replace(/[^a-z0-9-]/g, "-")` step, one character at a time. -/
def slugMapChar (c : Char) : Char := if isSlugChar c then c else '-'

/-- The collapse step: each run of hyphens becomes a single hyphen. -/
def collapseDashes : List Char → List Char
  | [] => []
  | [c] => [c]
  | a :: b :: rest =>
    if a = '-' && b = '-' then collapseDashes (b :: rest)
    else a :: collapseDashes (b :: rest)

/-- No two adjacent hyphens occur in the list (the collapse step's
postcondition). -/
def noAdjDash : List Char → Bool
  | a :: b :: rest => !(a = '-' && b = '-') && noAdjDash (b :: rest)
  | _ => true

/-- Remove one leading hyphen (the `^-` half of `replace(/^-|-$/g, "")`). -/
def dropLeadDash (l : List Char) : List Char :=
  match l with
  | [] => []
  | c :: rest => if c = '-' then rest else c :: rest

/-- Remove one trailing hyphen (the `-$` half of `replace(/^-|-$/g, "")`). -/
def dropTrailDash (l : List Char) : List Char :=
  (dropLeadDash l.reverse).reverse

/-- The full sanitization chain applied to the agent's reply, with
`slice(0, 30)` last; an empty result maps to `none` (the `slug || null`). -/
def sanitizeSlug (s : String) : Option String :=
  let l := (dropTrailDash (dropLeadDash (collapseDashes
    (((strTrim s).data.map Char.toLower).map slugMapChar)))).take 30
  if l = [] then none else some (String.mk l)

/-- `generateSlugViaLLM` from `src/hooks/llm-slug-generator.ts`.  The input is
the text of the first payload of the embedded agent run, or `none` when any of
the guarded effectful steps bailed out (missing credentials, agent error, no
payloads); the catch-all `try`/`catch` means the function never throws and
every such path returns `null`. -/
def generateSlugViaLLM (agentText : Option String) : Option String :=
  match agentText with
  | none => none
  | some text => sanitizeSlug text

/-- Specification predicate for a slug result: `none`, or a non-empty string
of at most 30 characters drawn from `[a-z0-9-]` that does not start with a
hyphen. -/
def slugOk : Option String → Bool
  | none => true
  | some s =>
    (!s.data.isEmpty) && decide (s.data.length ≤ 30) && s.data.all isSlugChar &&
      (match s.data with
       | c :: _ => !(c = '-')
       | [] => true)

/-! ## Ollama-aware stream function (`src/agents/pi-embedded-runner/ollama-stream.ts`) -/

/-- Per-provider configuration: only the `streamToolCalls` field matters here;
`none` models the field being absent. -/
structure ProviderConfig where
  streamToolCalls : Option Bool
deriving DecidableEq

/-- The `models` section: a provider-name-indexed table. -/
structure ModelsSection where
  providers : List (String × ProviderConfig)
deriving DecidableEq

/-- The parts of `OpenClawConfig` that `ollama-stream.ts` consults. -/
structure OpenClawConfig where
  models : Option ModelsSection
deriving DecidableEq

/-- The optional-chaining lookup `params.cfg?.models?.providers?.[provider]`. -/
def lookupProvider (cfg : Option OpenClawConfig) (provider : String) :
    Option ProviderConfig :=
  match cfg with
  | none => none
  | some c =>
    match c.models with
    | none => none
    | some m => m.providers.lookup provider

/-- `shouldDisableStreamingForTools`: true only when the provider is present in
the configuration and its `streamToolCalls` is explicitly `false`. -/
def shouldDisableStreamingForTools (cfg : Option OpenClawConfig)
    (provider : String) : Bool :=
  match lookupProvider cfg provider with
  | none => false
  | some pc => pc.streamToolCalls == some false

/-- The call context, as far as tool detection goes: `tools` is absent or an
array. -/
structure StreamContext where
  tools : Option (List Unit)
deriving DecidableEq

/-- `contextHasTools`: `Array.isArray(context.tools) && context.tools.length > 0`. -/
def contextHasTools (ctx : StreamContext) : Bool :=
  match ctx.tools with
  | some ts => decide (0 < ts.length)
  | none => false

/-- `createOllamaAwareStreamFn`, at the level of which function object is
returned: when streaming for tools is not disabled the supplied base stream
function is returned itself; otherwise a wrapped function (built from the
base) is returned.  The stream-function type is abstracted by `α`. -/
def createOllamaAwareStreamFn {α : Type} (cfg : Option OpenClawConfig)
    (provider : String) (baseStreamFn : α) (mkWrapped : α → α) : α :=
  if shouldDisableStreamingForTools cfg provider then mkWrapped baseStreamFn
  else baseStreamFn

/-- How one call through the created stream function is served. -/
inductive CallPath where
  | viaUnderlying
  | viaComplete
deriving DecidableEq

/-- Dispatch inside the wrapped stream function: non-streaming `complete()` is
used only when tools are present in the context. -/
def wrappedCallPath (ctx : StreamContext) : CallPath :=
  if contextHasTools ctx then .viaComplete else .viaUnderlying

/-- End-to-end dispatch of one call through `createOllamaAwareStreamFn`'s
result: the wrapper (and hence `complete()`) is reachable only when
`streamToolCalls` is explicitly `false`, and then only for calls whose context
has tools. -/
def ollamaAwareCallPath (cfg : Option OpenClawConfig) (provider : String)
    (ctx : StreamContext) : CallPath :=
  if shouldDisableStreamingForTools cfg provider then wrappedCallPath ctx
  else .viaUnderlying

/-- A configuration whose `openai` provider entry has no `streamToolCalls`
field. -/
def noDisableCfg : OpenClawConfig := ⟨some ⟨[("openai", ⟨none⟩)]⟩⟩

/-- A call context carrying one tool. -/
def oneToolCtx : StreamContext := ⟨some [()]⟩

/-! ## Matrix room-info resolver (`extensions/matrix/src/matrix/monitor/room-info.ts`) -/

/-- The projected Mongo cache document: only `name` and `canonical_alias` are
read. -/
structure MongoDoc where
  name : Option String
  canonicalAlias : Option String
deriving DecidableEq

/-- Room metadata returned by the resolver. -/
structure MatrixRoomInfo where
  name : Option String
  canonicalAlias : Option String
  altAliases : List String
deriving DecidableEq

/-- The external world of the resolver: the Mongo lookup (collapsed to `none`
when Mongo is not configured, fails, or has no usable document) and the Matrix
state-event lookups (collapsed to `none` / `[]` on errors, matching the
`catch` handlers). -/
structure RoomEnv where
  mongo : String → Option MongoDoc
  matrixName : String → Option String
  matrixAlias : String → Option String
  matrixAltAliases : String → List String

/-- The in-memory per-resolver cache `roomInfoCache`. -/
abbrev RoomCache := List (String × MatrixRoomInfo)

/-- The step-2 fallback: fetch `m.room.name` and `m.room.canonical_alias` from
Matrix. -/
def matrixFallback (env : RoomEnv) (roomId : String) : MatrixRoomInfo :=
  ⟨env.matrixName roomId, env.matrixAlias roomId, env.matrixAltAliases roomId⟩

/-- `getRoomInfo` from `createMatrixRoomInfoResolver`: consult the cache, then
Mongo (taking the document only when it has a name or canonical alias), then
live Matrix state; cache whatever was resolved.  The third component reports
whether any external (Mongo or Matrix) lookup was performed. -/
def getRoomInfo (env : RoomEnv) (cache : RoomCache) (roomId : String) :
    MatrixRoomInfo × RoomCache × Bool :=
  match cache.lookup roomId with
  | some cached => (cached, cache, false)
  | none =>
    match env.mongo roomId with
    | some doc =>
      if doc.name.isSome || doc.canonicalAlias.isSome then
        let info : MatrixRoomInfo := ⟨doc.name, doc.canonicalAlias, []⟩
        (info, (roomId, info) :: cache, true)
      else
        let info := matrixFallback env roomId
        (info, (roomId, info) :: cache, true)
    | none =>
      let info := matrixFallback env roomId
      (info, (roomId, info) :: cache, true)

/-! ## The gateway update orchestrator

`runGatewayUpdate` (in `update-runner.ts`) is not part of the source tree —
only its test is.  Everything in this section is therefore modelled from the
specification (sections 2-8 of the spec), pinned down by the exact command
vocabulary and the observable behaviour of the test
`does not fail update when dist/control-ui is not tracked`:

* commands are argument-token vectors executed by an injected runner that
  never throws on nonzero exit;
* the sequencing is
  root → current commit → cleanliness (excluding the protected asset path) →
  fetch (retried once) → tag list → version resolution → detached checkout →
  asset restore decision → install/build/ui-build → health check → verify;
* the protected asset check is `git cat-file -e HEAD:dist/control-ui/index.html`
  after checkout, any nonzero exit meaning "not tracked" and skipping the
  restore;
* the test shows that when the target tag cannot be resolved to a commit the
  update still proceeds and still verifies successfully, so tag-to-commit
  resolution is tolerant: a failed resolution leaves the target commit
  unknown, no-op detection compares the resolved target commit with the
  current commit, and the verify step asserts equality only when the target
  commit is known;
* each command is given the remaining time budget: a step with no budget left
  is never started, a step that would run past the budget is cancelled at the
  deadline, and either case yields a `TimeoutError` result, with rollback
  when a mutating command had already started.
-/

/-- Captured output of one external command; exit code 0 means success and a
failed command never throws. -/
structure CommandOutcome where
  stdout : String
  stderr : String
  code : Nat
deriving DecidableEq

/-- Modelled from the spec: the injected command runner.  It is stateful in an
abstract environment `σ` (the working directory and repository it acts on) and
also carries each command's natural latency, used by the time-budget model. -/
structure Runner (σ : Type) where
  run : σ → List String → CommandOutcome × σ
  dur : σ → List String → Nat

/-- Modelled from the spec: an update request — working directory, overall
time budget, release channel. -/
structure UpdateRequest where
  cwd : String
  timeoutMs : Nat
  channel : String
deriving DecidableEq

/-- The error taxonomy of the spec (section 7). -/
inductive FailureKind where
  | notAGitRepository
  | repositoryStateError
  | networkError
  | versionResolutionError
  | checkoutError
  | assetRestoreError
  | buildError
  | healthCheckError
  | timeoutError
deriving DecidableEq

/-- Terminal status of an update attempt. -/
inductive UpdateStatus where
  | ok
  | noop
  | error
deriving DecidableEq

/-- Modelled from the spec: the terminal result — status, originating and
resulting commits, message, failure classification and rollback reporting. -/
structure UpdateResult where
  status : UpdateStatus
  fromCommit : String
  toCommit : String
  message : String
  failure : Option FailureKind
  rollbackAttempted : Bool
  rollbackFailed : Bool
deriving DecidableEq

/-- Execution bookkeeping threaded through the orchestrator: the runner
environment, the trace of started commands, the remaining time budget, the
time consumed so far, and whether some step was cancelled (or refused a
start) because of the budget. -/
structure Exec (σ : Type) where
  env : σ
  calls : List (List String)
  remaining : Nat
  elapsed : Nat
  cancelled : Bool

/-- Outcome of attempting one budgeted step. -/
inductive StepResult where
  | completed (o : CommandOutcome)
  | timedOut

variable {σ : Type}

/-- Modelled from the spec: run one command under the remaining budget.  With
no budget left the step is never started (not even recorded); a step whose
latency exceeds the remaining budget is started but cancelled at the
deadline; otherwise it completes and consumes its latency. -/
def invoke (r : Runner σ) (s : Exec σ) (argv : List String) :
    StepResult × Exec σ :=
  if s.remaining = 0 then
    (.timedOut, { s with cancelled := true })
  else if s.remaining < r.dur s.env argv then
    (.timedOut,
     { s with
       calls := s.calls ++ [argv]
       remaining := 0
       elapsed := s.elapsed + s.remaining
       cancelled := true })
  else
    (.completed (r.run s.env argv).1,
     { env := (r.run s.env argv).2, calls := s.calls ++ [argv],
       remaining := s.remaining - r.dur s.env argv,
       elapsed := s.elapsed + r.dur s.env argv, cancelled := s.cancelled })

/-! ### Command vocabulary (exactly the argument vectors of the test) -/

/-- The protected asset directory. -/
def protectedPath : String := "dist/control-ui/"

/-- The tracked-entry probe file inside the protected asset directory. -/
def protectedEntry : String := "dist/control-ui/index.html"

/-- A git command run against the request's working directory. -/
def gitCmd (cwd : String) (rest : List String) : List String :=
  "git" :: "-C" :: cwd :: rest

def showToplevelCmd (cwd : String) : List String :=
  gitCmd cwd ["rev-parse", "--show-toplevel"]

def revParseHeadCmd (cwd : String) : List String :=
  gitCmd cwd ["rev-parse", "HEAD"]

def statusCmd (cwd : String) : List String :=
  gitCmd cwd ["status", "--porcelain", "--", ":!dist/control-ui/"]

def fetchCmd (cwd : String) : List String :=
  gitCmd cwd ["fetch", "--all", "--prune", "--tags"]

def tagListCmd (cwd : String) : List String :=
  gitCmd cwd ["tag", "--list", "v*", "--sort=-v:refname"]

def revParseRefCmd (cwd ref : String) : List String :=
  gitCmd cwd ["rev-parse", ref]

def checkoutDetachCmd (cwd ref : String) : List String :=
  gitCmd cwd ["checkout", "--detach", ref]

/-- The content-existence probe behind `isTrackedAtCommit`. -/
def isTrackedAtCommitCmd (cwd commitId relPath : String) : List String :=
  gitCmd cwd ["cat-file", "-e", commitId ++ ":" ++ relPath]

/-- The restore of the protected asset directory from the checked-out commit. -/
def restoreCmd (cwd : String) : List String :=
  gitCmd cwd ["checkout", "--", protectedPath]

def installCmd : List String := ["pnpm", "install"]

def buildCmd : List String := ["pnpm", "build"]

def uiBuildCmd : List String := ["pnpm", "ui:build"]

def doctorCmd : List String := ["pnpm", "moltbot", "doctor", "--non-interactive"]

/-- Modelled from the spec: `isTrackedAtCommit(commitId, relativePath)` — true
iff the content-existence command exits 0; any nonzero exit is "not tracked",
never an error. -/
def isTrackedAtCommit (r : Runner σ) (env : σ) (cwd commitId relPath : String) :
    Bool × σ :=
  ((r.run env (isTrackedAtCommitCmd cwd commitId relPath)).1.code == 0,
   (r.run env (isTrackedAtCommitCmd cwd commitId relPath)).2)

/-- Whether a recorded command mutates the working tree: any `git ... checkout`
(detach or path restore) or one of the build-pipeline commands. -/
def isMutatingCall (argv : List String) : Bool :=
  match argv with
  | "git" :: "-C" :: _ :: sub :: _ => sub == "checkout"
  | _ => argv == installCmd || argv == buildCmd || argv == uiBuildCmd

/-- Whether a recorded command is a checkout/restore of the protected asset
path from source control. -/
def isProtectedRestoreCall (argv : List String) : Bool :=
  match argv with
  | ["git", "-C", _, "checkout", "--", p] => p == protectedPath
  | _ => false

/-! ### Version resolution helpers -/

/-- Parse `git tag --list` output into tag lines (dropping empty lines). -/
def parseTags (out : String) : List String :=
  ((splitLinesChars out.data).map String.mk).filter (fun t => t ≠ "")

/-- Join tag lines with newlines (what the tag-list command prints). -/
def renderTagsChars : List String → List Char
  | [] => []
  | t :: rest =>
    match rest with
    | [] => t.data
    | _ :: _ => t.data ++ '\n' :: renderTagsChars rest

def renderTags (tags : List String) : String := String.mk (renderTagsChars tags)

/-- Modelled from the spec: the channel filter on tags — the stable channel
takes plain release tags (no pre-release hyphen suffix), any other channel
takes tags carrying a `-<channel>` suffix. -/
def channelMatches (channel tag : String) : Bool :=
  if channel = "stable" then !(tag.data.contains '-')
  else listPrefixOf (("-" ++ channel).data.reverse) tag.data.reverse

/-! ### Result constructors -/

def okResult (origin final : String) : UpdateResult :=
  ⟨.ok, origin, final, "updated", none, false, false⟩

def noopResult (origin : String) : UpdateResult :=
  ⟨.noop, origin, origin, "already up to date", none, false, false⟩

def errorResult (origin target : String) (k : FailureKind) (msg : String)
    (rbAttempted rbFailed : Bool) : UpdateResult :=
  ⟨.error, origin, target, msg, some k, rbAttempted, rbFailed⟩

/-- Modelled from the spec: roll back by detaching at the originating commit.
Rollback itself is not budgeted (it is the cleanup path of a cancellation) and
rollback failure is reported distinctly. -/
def rollbackTo (r : Runner σ) (s : Exec σ) (cwd origin : String)
    (k : FailureKind) (msg : String) : UpdateResult × Exec σ :=
  (errorResult origin origin k msg true
     ((r.run s.env (checkoutDetachCmd cwd origin)).1.code != 0),
   { s with env := (r.run s.env (checkoutDetachCmd cwd origin)).2,
            calls := s.calls ++ [checkoutDetachCmd cwd origin] })

/-- Modelled from the spec: terminal `TimeoutError`, rolling back when a
mutating command had already started. -/
def timeoutResult (r : Runner σ) (s : Exec σ) (cwd origin : String)
    (mutated : Bool) : UpdateResult × Exec σ :=
  if mutated then rollbackTo r s cwd origin .timeoutError "timed out"
  else (errorResult origin origin .timeoutError "timed out" false false, s)

/-! ### The phase chain (defined bottom-up) -/

/-- Modelled from the spec: VerifyingResult — re-resolve the current commit
and, when the target commit is known, assert that it was reached (the test
shows no assertion is possible when tag resolution failed). -/
def phaseVerify (r : Runner σ) (req : UpdateRequest) (s : Exec σ)
    (origin : String) (targetCommit : Option String) : UpdateResult × Exec σ :=
  match invoke r s (revParseHeadCmd req.cwd) with
  | (.timedOut, s') => timeoutResult r s' req.cwd origin true
  | (.completed o, s') =>
    if o.code ≠ 0 then rollbackTo r s' req.cwd origin .repositoryStateError o.stderr
    else
      match targetCommit with
      | some tc =>
        if strTrim o.stdout = tc then (okResult origin (strTrim o.stdout), s')
        else rollbackTo r s' req.cwd origin .checkoutError "verification mismatch"
      | none => (okResult origin (strTrim o.stdout), s')

/-- Modelled from the spec: HealthChecking — run the doctor command; nonzero
exit is `HealthCheckError` with rollback. -/
def phaseHealth (r : Runner σ) (req : UpdateRequest) (s : Exec σ)
    (origin : String) (targetCommit : Option String) : UpdateResult × Exec σ :=
  match invoke r s doctorCmd with
  | (.timedOut, s') => timeoutResult r s' req.cwd origin true
  | (.completed o, s') =>
    if o.code ≠ 0 then rollbackTo r s' req.cwd origin .healthCheckError o.stderr
    else phaseVerify r req s' origin targetCommit

/-- Modelled from the spec: Building — dependency install, primary build and
UI build in fixed order; any nonzero exit aborts the rest, is classified
`BuildError` carrying that command's stderr, and rolls back. -/
def phaseBuild (r : Runner σ) (req : UpdateRequest) (s : Exec σ)
    (origin : String) (targetCommit : Option String) : UpdateResult × Exec σ :=
  match invoke r s installCmd with
  | (.timedOut, s') => timeoutResult r s' req.cwd origin true
  | (.completed o1, s1) =>
    if o1.code ≠ 0 then rollbackTo r s1 req.cwd origin .buildError o1.stderr
    else
      match invoke r s1 buildCmd with
      | (.timedOut, s') => timeoutResult r s' req.cwd origin true
      | (.completed o2, s2) =>
        if o2.code ≠ 0 then rollbackTo r s2 req.cwd origin .buildError o2.stderr
        else
          match invoke r s2 uiBuildCmd with
          | (.timedOut, s') => timeoutResult r s' req.cwd origin true
          | (.completed o3, s3) =>
            if o3.code ≠ 0 then rollbackTo r s3 req.cwd origin .buildError o3.stderr
            else phaseHealth r req s3 origin targetCommit

/-- Modelled from the spec: RestoringAssets — probe the protected entry at the
checked-out commit; exit 0 restores the directory (a failure of the restore is
`AssetRestoreError` with rollback), any nonzero exit skips the restore and
relies on the build. -/
def phaseRestore (r : Runner σ) (req : UpdateRequest) (s : Exec σ)
    (origin : String) (targetCommit : Option String) : UpdateResult × Exec σ :=
  match invoke r s (isTrackedAtCommitCmd req.cwd "HEAD" protectedEntry) with
  | (.timedOut, s') => timeoutResult r s' req.cwd origin true
  | (.completed o, s') =>
    if o.code = 0 then
      match invoke r s' (restoreCmd req.cwd) with
      | (.timedOut, s2) => timeoutResult r s2 req.cwd origin true
      | (.completed o2, s2) =>
        if o2.code ≠ 0 then rollbackTo r s2 req.cwd origin .assetRestoreError o2.stderr
        else phaseBuild r req s2 origin targetCommit
    else phaseBuild r req s' origin targetCommit

/-- Modelled from the spec: CheckingOut — detach HEAD at the target tag.  A
completed-but-failed checkout left HEAD unchanged, so it is terminal without
rollback; a cancelled checkout may have mutated, so it rolls back. -/
def phaseCheckout (r : Runner σ) (req : UpdateRequest) (s : Exec σ)
    (origin targetTag : String) (targetCommit : Option String) :
    UpdateResult × Exec σ :=
  match invoke r s (checkoutDetachCmd req.cwd targetTag) with
  | (.timedOut, s') => timeoutResult r s' req.cwd origin true
  | (.completed o, s') =>
    if o.code ≠ 0 then
      (errorResult origin origin .checkoutError o.stderr false false, s')
    else phaseRestore r req s' origin targetCommit

/-- Modelled from the spec: PlanningVersion — list tags (already sorted by the
source-control system), filter by channel and take the first; resolve the tag
to a commit tolerantly; when the resolved commit equals the current commit,
exit with `no-op`.  When no tag matches the channel, the outcome is `no-op`
only when the repository is already at the single available tag, otherwise a
hard `VersionResolutionError`. -/
def phasePlan (r : Runner σ) (req : UpdateRequest) (s : Exec σ)
    (origin : String) : UpdateResult × Exec σ :=
  match invoke r s (tagListCmd req.cwd) with
  | (.timedOut, s') => timeoutResult r s' req.cwd origin false
  | (.completed o, s') =>
    if o.code ≠ 0 then
      (errorResult origin origin .versionResolutionError o.stderr false false, s')
    else
      match (parseTags o.stdout).filter (channelMatches req.channel) with
      | t :: _ =>
        (match invoke r s' (revParseRefCmd req.cwd t) with
         | (.timedOut, s2) => timeoutResult r s2 req.cwd origin false
         | (.completed oR, s2) =>
           if oR.code = 0 then
             if strTrim oR.stdout = origin then (noopResult origin, s2)
             else phaseCheckout r req s2 origin t (some (strTrim oR.stdout))
           else phaseCheckout r req s2 origin t none)
      | [] =>
        (match parseTags o.stdout with
         | [t] =>
           (match invoke r s' (revParseRefCmd req.cwd t) with
            | (.timedOut, s2) => timeoutResult r s2 req.cwd origin false
            | (.completed oR, s2) =>
              if oR.code = 0 ∧ strTrim oR.stdout = origin then (noopResult origin, s2)
              else (errorResult origin origin .versionResolutionError
                      "no matching version" false false, s2))
         | _ => (errorResult origin origin .versionResolutionError
                   "no matching version" false false, s'))

/-- Modelled from the spec: Fetching — fetch all refs and tags, retrying once;
a second failure is `NetworkError`, terminal without rollback. -/
def phaseFetch (r : Runner σ) (req : UpdateRequest) (s : Exec σ)
    (origin : String) : UpdateResult × Exec σ :=
  match invoke r s (fetchCmd req.cwd) with
  | (.timedOut, s') => timeoutResult r s' req.cwd origin false
  | (.completed o, s') =>
    if o.code = 0 then phasePlan r req s' origin
    else
      match invoke r s' (fetchCmd req.cwd) with
      | (.timedOut, s2) => timeoutResult r s2 req.cwd origin false
      | (.completed o2, s2) =>
        if o2.code = 0 then phasePlan r req s2 origin
        else (errorResult origin origin .networkError o2.stderr false false, s2)

/-- Modelled from the spec: Preflight cleanliness — a status query excluding
the protected asset path must print nothing; otherwise terminal
`RepositoryStateError` without rollback. -/
def phaseClean (r : Runner σ) (req : UpdateRequest) (s : Exec σ)
    (origin : String) : UpdateResult × Exec σ :=
  match invoke r s (statusCmd req.cwd) with
  | (.timedOut, s') => timeoutResult r s' req.cwd origin false
  | (.completed o, s') =>
    if o.code ≠ 0 ∨ o.stdout ≠ "" then
      (errorResult origin origin .repositoryStateError "working tree not clean"
         false false, s')
    else phaseFetch r req s' origin

/-- Modelled from the spec: Preflight current-commit resolution; failure is
terminal `RepositoryStateError` without rollback. -/
def phaseCurrent (r : Runner σ) (req : UpdateRequest) (s : Exec σ) :
    UpdateResult × Exec σ :=
  match invoke r s (revParseHeadCmd req.cwd) with
  | (.timedOut, s') => timeoutResult r s' req.cwd "" false
  | (.completed o, s') =>
    if o.code ≠ 0 then
      (errorResult "" "" .repositoryStateError o.stderr false false, s')
    else phaseClean r req s' (strTrim o.stdout)

/-- Modelled from the spec: Preflight repository-root resolution; failure is
terminal `NotAGitRepository`. -/
def phaseRoot (r : Runner σ) (req : UpdateRequest) (s : Exec σ) :
    UpdateResult × Exec σ :=
  match invoke r s (showToplevelCmd req.cwd) with
  | (.timedOut, s') => timeoutResult r s' req.cwd "" false
  | (.completed o, s') =>
    if o.code ≠ 0 then
      (errorResult "" "" .notAGitRepository o.stderr false false, s')
    else phaseCurrent r req s'

/-- Modelled from the spec: `runGatewayUpdate` — drive the phases from a fresh
execution state holding the full time budget. -/
def runGatewayUpdate (r : Runner σ) (req : UpdateRequest) (env₀ : σ) :
    UpdateResult × Exec σ :=
  phaseRoot r req ⟨env₀, [], req.timeoutMs, 0, false⟩

/-! ### A concrete git world

The abstract runner is instantiated with a small model of a git repository,
so that runs of the orchestrator against scenarios (current commit, tags,
trackedness of the protected asset, build outcomes) can be evaluated and
reasoned about, including the state mutation performed by `checkout`. -/

/-- A model git repository plus the outcomes of the non-git pipeline
commands. -/
structure World where
  isRepo : Bool
  root : String
  current : String
  statusOut : String
  fetchRes : CommandOutcome
  tags : List String
  resolveRef : String → Option String
  tracked : String → String → Bool
  restoreRes : CommandOutcome
  installRes : CommandOutcome
  buildRes : CommandOutcome
  uiBuildRes : CommandOutcome
  doctorRes : CommandOutcome
  dur : List String → Nat

/-- Interpretation of `git rev-parse <r>` against the world. -/
def revParseResult (w : World) (r : String) : CommandOutcome :=
  if r = "--show-toplevel" then
    if w.isRepo then ⟨w.root, "", 0⟩
    else ⟨"", "not a git repository", 128⟩
  else if r = "HEAD" then ⟨w.current, "", 0⟩
  else
    match w.resolveRef r with
    | some c => ⟨c, "", 0⟩
    | none => ⟨"", "unknown revision", 128⟩

/-- Interpret one command against the world.  Only `checkout --detach`
mutates (moving `current` to the resolved commit); unrecognised commands fail
like the unmocked commands of the test harness. -/
def worldRun (w : World) (argv : List String) : CommandOutcome × World :=
  match argv with
  | ["pnpm", "install"] => (w.installRes, w)
  | ["pnpm", "build"] => (w.buildRes, w)
  | ["pnpm", "ui:build"] => (w.uiBuildRes, w)
  | ["pnpm", "moltbot", "doctor", "--non-interactive"] => (w.doctorRes, w)
  | ["git", "-C", _, "rev-parse", r] => (revParseResult w r, w)
  | ["git", "-C", _, "status", "--porcelain", "--", ":!dist/control-ui/"] =>
    (⟨w.statusOut, "", 0⟩, w)
  | ["git", "-C", _, "fetch", "--all", "--prune", "--tags"] => (w.fetchRes, w)
  | ["git", "-C", _, "tag", "--list", "v*", "--sort=-v:refname"] =>
    (⟨renderTags w.tags, "", 0⟩, w)
  | ["git", "-C", _, "checkout", "--detach", r] =>
    (match w.resolveRef r with
     | some c => (⟨"", "", 0⟩, { w with current := c })
     | none => (⟨"", "pathspec did not match", 1⟩, w))
  | ["git", "-C", _, "checkout", "--", _] => (w.restoreRes, w)
  | ["git", "-C", _, "cat-file", "-e", obj] =>
    (match splitColon obj with
     | some (ref, p) =>
       (match (if ref = "HEAD" then some w.current else w.resolveRef ref) with
        | some c =>
          if w.tracked c p then (⟨"", "", 0⟩, w)
          else (⟨"", "not a valid object name", 1⟩, w)
        | none => (⟨"", "not a valid object name", 1⟩, w))
     | none => (⟨"", "bad object", 1⟩, w))
  | _ => (⟨"", "unmocked", 1⟩, w)

/-- The abstract runner over the world model. -/
def WorldRunner : Runner World :=
  ⟨fun w argv => worldRun w argv, fun w argv => w.dur argv⟩

/-! ### Hypothesis bundles describing scenario families -/

/-- Conditions letting a run reach the version-planning phase: a positive
budget, instantaneous commands, a repository with the originating commit
already in normalized (trimmed) form, a clean tree and a successful fetch,
with tag output that round-trips through the tag parser. -/
structure PlanEnv (w : World) (req : UpdateRequest) : Prop where
  hT : req.timeoutMs ≠ 0
  hdur : ∀ a, w.dur a = 0
  hrepo : w.isRepo = true
  hcur : strTrim w.current = w.current
  hclean : w.statusOut = ""
  hfetch : w.fetchRes.code = 0
  hTags : parseTags (renderTags w.tags) = w.tags

/-- Conditions under which the planner selects the tag `t` resolving to commit
`ct`, distinct from the current commit, and the checkout succeeds. -/
structure TargetEnv (w : World) (req : UpdateRequest) (t ct : String)
    extends PlanEnv w req : Prop where
  hname1 : t ≠ "--show-toplevel"
  hname2 : t ≠ "HEAD"
  hcand : ∃ rest, (w.tags.filter (channelMatches req.channel)) = t :: rest
  hres : w.resolveRef t = some ct
  hct : strTrim ct = ct
  hne : ct ≠ w.current

/-- A fully successful update scenario: on top of `TargetEnv`, the restore (if
taken), the three build commands and the health check all succeed. -/
structure SuccessEnv (w : World) (req : UpdateRequest) (t ct : String)
    extends TargetEnv w req t ct : Prop where
  hrestore : w.restoreRes.code = 0
  hinstall : w.installRes.code = 0
  hbuild : w.buildRes.code = 0
  hui : w.uiBuildRes.code = 0
  hdoctor : w.doctorRes.code = 0

/-- A no-op scenario: the selected tag resolves to the current commit. -/
structure NoopEnv (w : World) (req : UpdateRequest) (t : String)
    extends PlanEnv w req : Prop where
  hname1 : t ≠ "--show-toplevel"
  hname2 : t ≠ "HEAD"
  hcand : ∃ rest, (w.tags.filter (channelMatches req.channel)) = t :: rest
  hres : w.resolveRef t = some w.current

/-- A build-failure scenario family: the run reaches the build phase (restore
succeeding if taken) and the originating commit is resolvable for rollback. -/
structure BuildPhaseEnv (w : World) (req : UpdateRequest) (t ct : String)
    extends TargetEnv w req t ct : Prop where
  hrestore : w.restoreRes.code = 0
  horigin : w.resolveRef w.current = some w.current

/-! ### Concrete scenario worlds -/

/-- The repository of the test scenario: at commit `abc123`, clean, one tag
`v1.0.1` resolving to `def456`, protected asset untracked everywhere, all
pipeline commands succeeding instantly. -/
def baseWorld : World :=
  { isRepo := true
    root := "/srv/moltbot"
    current := "abc123"
    statusOut := ""
    fetchRes := ⟨"", "", 0⟩
    tags := ["v1.0.1"]
    resolveRef := fun r =>
      if r = "v1.0.1" then some "def456"
      else if r = "abc123" then some "abc123"
      else if r = "def456" then some "def456"
      else none
    tracked := fun _ _ => false
    restoreRes := ⟨"", "", 0⟩
    installRes := ⟨"", "", 0⟩
    buildRes := ⟨"", "", 0⟩
    uiBuildRes := ⟨"", "", 0⟩
    doctorRes := ⟨"", "", 0⟩
    dur := fun _ => 0 }

/-- The request of the test scenario. -/
def stdReq : UpdateRequest := ⟨"/srv/moltbot", 5000, "stable"⟩

/-- Like `baseWorld` but the single tag already points at the current
commit. -/
def atTargetWorld : World :=
  { baseWorld with
    resolveRef := fun r =>
      if r = "v1.0.1" then some "abc123"
      else if r = "abc123" then some "abc123"
      else none }

/-- A request on the beta channel (which no tag of `baseWorld` matches). -/
def betaReq : UpdateRequest := ⟨"/srv/moltbot", 5000, "beta"⟩

/-- Like `baseWorld` but the dependency install fails. -/
def installFailWorld : World :=
  { baseWorld with installRes := ⟨"", "install blew up", 1⟩ }

/-- Like `baseWorld` but every command takes a minute: the very first step
already overruns the 5-second budget. -/
def slowWorld : World :=
  { baseWorld with dur := fun _ => 60000 }

/-! ## Evaluation lemmas for the world interpreter -/

theorem worldRun_toplevel (w : World) (cwd : String) :
    worldRun w (showToplevelCmd cwd) =
      ((if w.isRepo then ⟨w.root, "", 0⟩
        else ⟨"", "not a git repository", 128⟩ : CommandOutcome), w) := rfl

theorem worldRun_revHead (w : World) (cwd : String) :
    worldRun w (revParseHeadCmd cwd) = (⟨w.current, "", 0⟩, w) := rfl

theorem worldRun_status (w : World) (cwd : String) :
    worldRun w (statusCmd cwd) = (⟨w.statusOut, "", 0⟩, w) := rfl

theorem worldRun_fetch (w : World) (cwd : String) :
    worldRun w (fetchCmd cwd) = (w.fetchRes, w) := rfl

theorem worldRun_tagList (w : World) (cwd : String) :
    worldRun w (tagListCmd cwd) = (⟨renderTags w.tags, "", 0⟩, w) := rfl

theorem worldRun_revRef (w : World) (cwd ref : String) :
    worldRun w (revParseRefCmd cwd ref) = (revParseResult w ref, w) := rfl

theorem revParseResult_of_resolve (w : World) (ref c : String)
    (h1 : ref ≠ "--show-toplevel") (h2 : ref ≠ "HEAD")
    (h : w.resolveRef ref = some c) :
    revParseResult w ref = ⟨c, "", 0⟩ := by
  rw [revParseResult, if_neg h1, if_neg h2, h]

theorem revParseResult_of_unresolved (w : World) (ref : String)
    (h1 : ref ≠ "--show-toplevel") (h2 : ref ≠ "HEAD")
    (h : w.resolveRef ref = none) :
    revParseResult w ref = ⟨"", "unknown revision", 128⟩ := by
  rw [revParseResult, if_neg h1, if_neg h2, h]

theorem worldRun_checkout (w : World) (cwd ref : String) :
    worldRun w (checkoutDetachCmd cwd ref) =
      (match w.resolveRef ref with
       | some c => (⟨"", "", 0⟩, { w with current := c })
       | none => (⟨"", "pathspec did not match", 1⟩, w)) := rfl

theorem worldRun_catFile (w : World) (cwd : String) :
    worldRun w (isTrackedAtCommitCmd cwd "HEAD" protectedEntry) =
      (if w.tracked w.current protectedEntry then (⟨"", "", 0⟩, w)
       else (⟨"", "not a valid object name", 1⟩, w)) := rfl

theorem worldRun_catFile_skip (w : World) (cwd : String)
    (htr : w.tracked w.current protectedEntry = false) :
    worldRun w (isTrackedAtCommitCmd cwd "HEAD" protectedEntry) =
      (⟨"", "not a valid object name", 1⟩, w) := by
  rw [worldRun_catFile, htr]
  simp

theorem worldRun_catFile_take (w : World) (cwd : String)
    (htr : w.tracked w.current protectedEntry = true) :
    worldRun w (isTrackedAtCommitCmd cwd "HEAD" protectedEntry) =
      (⟨"", "", 0⟩, w) := by
  rw [worldRun_catFile, htr]
  simp

theorem worldRun_restore (w : World) (cwd : String) :
    worldRun w (restoreCmd cwd) = (w.restoreRes, w) := rfl

theorem worldRun_install (w : World) : worldRun w installCmd = (w.installRes, w) := rfl

theorem worldRun_build (w : World) : worldRun w buildCmd = (w.buildRes, w) := rfl

theorem worldRun_uiBuild (w : World) : worldRun w uiBuildCmd = (w.uiBuildRes, w) := rfl

theorem worldRun_doctor (w : World) : worldRun w doctorCmd = (w.doctorRes, w) := rfl

/-- An instantaneous command with budget left completes, keeping the budget
and the elapsed time unchanged. -/
theorem invoke_zero (r : Runner σ) (s : Exec σ) (argv : List String)
    (hT : s.remaining ≠ 0) (hd : r.dur s.env argv = 0) :
    invoke r s argv =
      (.completed (r.run s.env argv).1,
       { env := (r.run s.env argv).2, calls := s.calls ++ [argv],
         remaining := s.remaining, elapsed := s.elapsed,
         cancelled := s.cancelled }) := by
  simp [invoke, hT, hd]

/-- Preflight and fetch under a `PlanEnv` reach the planning phase with the
four query commands on the trace and the budget untouched. -/
theorem reach_plan (w : World) (req : UpdateRequest) (h : PlanEnv w req) :
    runGatewayUpdate WorldRunner req w =
      phasePlan WorldRunner req
        ⟨w, [showToplevelCmd req.cwd, revParseHeadCmd req.cwd, statusCmd req.cwd,
             fetchCmd req.cwd], req.timeoutMs, 0, false⟩ w.current := by
  obtain ⟨hT, hdur, hrepo, hcur, hclean, hfetch, hTags⟩ := h
  simp only [runGatewayUpdate, phaseRoot, phaseCurrent, phaseClean, phaseFetch,
    invoke_zero, WorldRunner, worldRun_toplevel, worldRun_revHead, worldRun_status,
    worldRun_fetch, hrepo, hcur, hclean, hfetch, hdur, hT, ne_eq,
    List.nil_append, List.cons_append, List.append_nil, if_true, if_false,
    not_false_eq_true, not_true_eq_false, or_self, ite_true, ite_false]

/-- Planning under a `TargetEnv` selects tag `t`, resolves it to `ct` and
moves on to the checkout phase. -/
theorem plan_step (w : World) (req : UpdateRequest) (cs : List (List String))
    (t ct : String) (h : TargetEnv w req t ct) :
    phasePlan WorldRunner req ⟨w, cs, req.timeoutMs, 0, false⟩ w.current =
      phaseCheckout WorldRunner req
        ⟨w, cs ++ [tagListCmd req.cwd, revParseRefCmd req.cwd t],
         req.timeoutMs, 0, false⟩ w.current t (some ct) := by
  obtain ⟨rest, hfilter⟩ := h.hcand
  simp only [phasePlan, invoke_zero, WorldRunner, worldRun_tagList,
    worldRun_revRef, revParseResult_of_resolve _ _ _ h.hname1 h.hname2 h.hres,
    h.hT, h.hdur, h.hTags, hfilter, h.hct, ne_eq,
    List.nil_append, List.cons_append, List.append_nil, if_true, if_false,
    not_false_eq_true, not_true, List.append_assoc, ite_true, ite_false,
    if_neg h.hne]

/-- Checkout of the resolved tag succeeds, moving the world to the target
commit. -/
theorem checkout_step (w : World) (req : UpdateRequest) (cs : List (List String))
    (t ct : String) (h : TargetEnv w req t ct) :
    phaseCheckout WorldRunner req ⟨w, cs, req.timeoutMs, 0, false⟩
        w.current t (some ct) =
      phaseRestore WorldRunner req
        ⟨{ w with current := ct }, cs ++ [checkoutDetachCmd req.cwd t],
         req.timeoutMs, 0, false⟩ w.current (some ct) := by
  simp only [phaseCheckout, invoke_zero, WorldRunner, worldRun_checkout,
    h.hT, h.hdur, h.hres, ne_eq,
    List.nil_append, List.cons_append, List.append_nil, List.append_assoc,
    if_true, if_false, not_false_eq_true, not_true, one_ne_zero, ite_true,
    ite_false]

/-- When the protected entry is not tracked at the checked-out commit, the
restore phase only probes and then proceeds to the build. -/
theorem restore_skip (v : World) (req : UpdateRequest) (cs : List (List String))
    (origin : String) (tc : Option String) (hT : req.timeoutMs ≠ 0)
    (hdur : ∀ a, v.dur a = 0)
    (htr : v.tracked v.current protectedEntry = false) :
    phaseRestore WorldRunner req ⟨v, cs, req.timeoutMs, 0, false⟩ origin tc =
      phaseBuild WorldRunner req
        ⟨v, cs ++ [isTrackedAtCommitCmd req.cwd "HEAD" protectedEntry],
         req.timeoutMs, 0, false⟩ origin tc := by
  simp only [phaseRestore, invoke_zero, WorldRunner,
    worldRun_catFile_skip _ _ htr, hT, hdur, ne_eq,
    List.nil_append, List.cons_append, List.append_nil, List.append_assoc,
    if_true, if_false, not_false_eq_true, not_true, one_ne_zero, ite_true,
    ite_false]

/-- When the protected entry is tracked at the checked-out commit, the
restore phase probes, restores the directory and proceeds to the build. -/
theorem restore_take (v : World) (req : UpdateRequest) (cs : List (List String))
    (origin : String) (tc : Option String) (hT : req.timeoutMs ≠ 0)
    (hdur : ∀ a, v.dur a = 0)
    (htr : v.tracked v.current protectedEntry = true)
    (hok : v.restoreRes.code = 0) :
    phaseRestore WorldRunner req ⟨v, cs, req.timeoutMs, 0, false⟩ origin tc =
      phaseBuild WorldRunner req
        ⟨v, cs ++ [isTrackedAtCommitCmd req.cwd "HEAD" protectedEntry,
                   restoreCmd req.cwd],
         req.timeoutMs, 0, false⟩ origin tc := by
  simp only [phaseRestore, invoke_zero, WorldRunner,
    worldRun_catFile_take _ _ htr, worldRun_restore, hT, hdur, hok, ne_eq,
    List.nil_append, List.cons_append, List.append_nil, List.append_assoc,
    if_true, if_false, not_false_eq_true, not_true, one_ne_zero, ite_true,
    ite_false]

/-- With all pipeline commands succeeding and the world sitting at the target
commit, build, health check and verification complete with an `ok` result. -/
theorem build_ok_step (v : World) (req : UpdateRequest) (cs : List (List String))
    (origin : String) (hT : req.timeoutMs ≠ 0) (hdur : ∀ a, v.dur a = 0)
    (hcurv : strTrim v.current = v.current)
    (hinstall : v.installRes.code = 0) (hbuild : v.buildRes.code = 0)
    (hui : v.uiBuildRes.code = 0) (hdoctor : v.doctorRes.code = 0) :
    phaseBuild WorldRunner req ⟨v, cs, req.timeoutMs, 0, false⟩ origin
        (some v.current) =
      (okResult origin v.current,
       ⟨v, cs ++ [installCmd, buildCmd, uiBuildCmd, doctorCmd,
                  revParseHeadCmd req.cwd],
        req.timeoutMs, 0, false⟩) := by
  simp only [phaseBuild, phaseHealth, phaseVerify, invoke_zero, WorldRunner,
    worldRun_install, worldRun_build, worldRun_uiBuild, worldRun_doctor,
    worldRun_revHead, hT, hdur, hcurv, hinstall, hbuild, hui, hdoctor, ne_eq,
    List.nil_append, List.cons_append, List.append_nil, List.append_assoc,
    if_true, if_false, not_false_eq_true, not_true, one_ne_zero, ite_true,
    ite_false]

/-- Rolling back against the world succeeds when the originating commit is
resolvable, reporting the failure kind with a successful rollback. -/
theorem rollback_world (v : World) (cwd origin : String)
    (cs : List (List String)) (T el : Nat) (cl : Bool) (k : FailureKind)
    (msg : String) (h : v.resolveRef origin = some origin) :
    rollbackTo WorldRunner ⟨v, cs, T, el, cl⟩ cwd origin k msg =
      (errorResult origin origin k msg true false,
       ⟨{ v with current := origin }, cs ++ [checkoutDetachCmd cwd origin],
        T, el, cl⟩) := by
  simp only [rollbackTo, WorldRunner, worldRun_checkout, h, bne_self_eq_false]

/-- A failing dependency install aborts the pipeline, rolls back and reports
`BuildError` with the install's stderr. -/
theorem build_fail_install (v : World) (req : UpdateRequest)
    (cs : List (List String)) (origin : String) (tc : Option String)
    (hT : req.timeoutMs ≠ 0) (hdur : ∀ a, v.dur a = 0)
    (hfail : v.installRes.code ≠ 0) (horb : v.resolveRef origin = some origin) :
    phaseBuild WorldRunner req ⟨v, cs, req.timeoutMs, 0, false⟩ origin tc =
      (errorResult origin origin .buildError v.installRes.stderr true false,
       ⟨{ v with current := origin },
        cs ++ [installCmd, checkoutDetachCmd req.cwd origin],
        req.timeoutMs, 0, false⟩) := by
  simp only [phaseBuild, invoke_zero, WorldRunner, worldRun_install,
    hT, hdur, hfail, ne_eq,
    List.nil_append, List.cons_append, List.append_nil, List.append_assoc,
    if_true, if_false, not_false_eq_true, not_true, ite_true, ite_false]
  simp only [rollbackTo, worldRun_checkout, horb, bne_self_eq_false,
    List.append_assoc, List.cons_append, List.nil_append]

/-- A failing primary build aborts the pipeline, rolls back and reports
`BuildError` with the build's stderr. -/
theorem build_fail_build (v : World) (req : UpdateRequest)
    (cs : List (List String)) (origin : String) (tc : Option String)
    (hT : req.timeoutMs ≠ 0) (hdur : ∀ a, v.dur a = 0)
    (hinstall : v.installRes.code = 0) (hfail : v.buildRes.code ≠ 0)
    (horb : v.resolveRef origin = some origin) :
    phaseBuild WorldRunner req ⟨v, cs, req.timeoutMs, 0, false⟩ origin tc =
      (errorResult origin origin .buildError v.buildRes.stderr true false,
       ⟨{ v with current := origin },
        cs ++ [installCmd, buildCmd, checkoutDetachCmd req.cwd origin],
        req.timeoutMs, 0, false⟩) := by
  simp only [phaseBuild, invoke_zero, WorldRunner, worldRun_install,
    worldRun_build, hT, hdur, hinstall, hfail, ne_eq,
    List.nil_append, List.cons_append, List.append_nil, List.append_assoc,
    if_true, if_false, not_false_eq_true, not_true, ite_true, ite_false]
  simp only [rollbackTo, worldRun_checkout, horb, bne_self_eq_false,
    List.append_assoc, List.cons_append, List.nil_append]

/-- A failing UI build aborts the pipeline, rolls back and reports
`BuildError` with the UI build's stderr. -/
theorem build_fail_ui (v : World) (req : UpdateRequest)
    (cs : List (List String)) (origin : String) (tc : Option String)
    (hT : req.timeoutMs ≠ 0) (hdur : ∀ a, v.dur a = 0)
    (hinstall : v.installRes.code = 0) (hbuild : v.buildRes.code = 0)
    (hfail : v.uiBuildRes.code ≠ 0)
    (horb : v.resolveRef origin = some origin) :
    phaseBuild WorldRunner req ⟨v, cs, req.timeoutMs, 0, false⟩ origin tc =
      (errorResult origin origin .buildError v.uiBuildRes.stderr true false,
       ⟨{ v with current := origin },
        cs ++ [installCmd, buildCmd, uiBuildCmd,
               checkoutDetachCmd req.cwd origin],
        req.timeoutMs, 0, false⟩) := by
  simp only [phaseBuild, invoke_zero, WorldRunner, worldRun_install,
    worldRun_build, worldRun_uiBuild, hT, hdur, hinstall, hbuild, hfail, ne_eq,
    List.nil_append, List.cons_append, List.append_nil, List.append_assoc,
    if_true, if_false, not_false_eq_true, not_true, ite_true, ite_false]
  simp only [rollbackTo, worldRun_checkout, horb, bne_self_eq_false,
    List.append_assoc, List.cons_append, List.nil_append]

/-- A fully successful update: the result is `ok` from the original commit to
the resolved target, the working directory ends at the target commit, and
when the protected asset is untracked at the target no command on the trace
is a source-control restore of the protected path. -/
theorem run_success (w : World) (req : UpdateRequest) (t ct : String)
    (h : SuccessEnv w req t ct) :
    (runGatewayUpdate WorldRunner req w).1 = okResult w.current ct ∧
    (runGatewayUpdate WorldRunner req w).2.env = { w with current := ct } ∧
    (w.tracked ct protectedEntry = false →
      ((runGatewayUpdate WorldRunner req w).2.calls.all
        (fun c => !isProtectedRestoreCall c)) = true) := by
  have e1 := reach_plan w req h.toPlanEnv
  have e2 := plan_step w req
    [showToplevelCmd req.cwd, revParseHeadCmd req.cwd, statusCmd req.cwd,
     fetchCmd req.cwd] t ct h.toTargetEnv
  have e3 := checkout_step w req
    ([showToplevelCmd req.cwd, revParseHeadCmd req.cwd, statusCmd req.cwd,
      fetchCmd req.cwd] ++ [tagListCmd req.cwd, revParseRefCmd req.cwd t])
    t ct h.toTargetEnv
  cases htr : w.tracked ct protectedEntry with
  | false =>
    have e4 := restore_skip { w with current := ct } req
      ([showToplevelCmd req.cwd, revParseHeadCmd req.cwd, statusCmd req.cwd,
        fetchCmd req.cwd] ++ [tagListCmd req.cwd, revParseRefCmd req.cwd t]
        ++ [checkoutDetachCmd req.cwd t])
      w.current (some ct) h.hT (fun a => h.hdur a) htr
    have e5 := build_ok_step { w with current := ct } req
      ([showToplevelCmd req.cwd, revParseHeadCmd req.cwd, statusCmd req.cwd,
        fetchCmd req.cwd] ++ [tagListCmd req.cwd, revParseRefCmd req.cwd t]
        ++ [checkoutDetachCmd req.cwd t]
        ++ [isTrackedAtCommitCmd req.cwd "HEAD" protectedEntry])
      w.current h.hT (fun a => h.hdur a) h.hct h.hinstall h.hbuild h.hui
      h.hdoctor
    rw [e1, e2, e3, e4, e5]
    exact ⟨rfl, rfl, fun _ => rfl⟩
  | true =>
    have e4 := restore_take { w with current := ct } req
      ([showToplevelCmd req.cwd, revParseHeadCmd req.cwd, statusCmd req.cwd,
        fetchCmd req.cwd] ++ [tagListCmd req.cwd, revParseRefCmd req.cwd t]
        ++ [checkoutDetachCmd req.cwd t])
      w.current (some ct) h.hT (fun a => h.hdur a) htr h.hrestore
    have e5 := build_ok_step { w with current := ct } req
      ([showToplevelCmd req.cwd, revParseHeadCmd req.cwd, statusCmd req.cwd,
        fetchCmd req.cwd] ++ [tagListCmd req.cwd, revParseRefCmd req.cwd t]
        ++ [checkoutDetachCmd req.cwd t]
        ++ [isTrackedAtCommitCmd req.cwd "HEAD" protectedEntry,
            restoreCmd req.cwd])
      w.current h.hT (fun a => h.hdur a) h.hct h.hinstall h.hbuild h.hui
      h.hdoctor
    rw [e1, e2, e3, e4, e5]
    refine ⟨rfl, rfl, fun hcontra => ?_⟩
    simp at hcontra

/-- A no-op run: the resolved target already equals the current commit, the
result is `no-op`, and only the six query commands were issued. -/
theorem run_noop (w : World) (req : UpdateRequest) (t : String)
    (h : NoopEnv w req t) :
    runGatewayUpdate WorldRunner req w =
      (noopResult w.current,
       ⟨w, [showToplevelCmd req.cwd, revParseHeadCmd req.cwd, statusCmd req.cwd,
            fetchCmd req.cwd, tagListCmd req.cwd, revParseRefCmd req.cwd t],
        req.timeoutMs, 0, false⟩) := by
  rw [reach_plan w req h.toPlanEnv]
  obtain ⟨rest, hfilter⟩ := h.hcand
  simp only [phasePlan, invoke_zero, WorldRunner, worldRun_tagList,
    worldRun_revRef, revParseResult_of_resolve _ _ _ h.hname1 h.hname2 h.hres,
    h.hT, h.hdur, h.hTags, hfilter, h.hcur, ne_eq, eq_self_iff_true,
    List.nil_append, List.cons_append, List.append_nil, List.append_assoc,
    if_true, if_false, not_false_eq_true, not_true, ite_true, ite_false]

/-- Under a `BuildPhaseEnv` the run reaches the build phase at the target
commit, with no build-pipeline command on the trace yet. -/
theorem reach_build (w : World) (req : UpdateRequest) (t ct : String)
    (h : BuildPhaseEnv w req t ct) :
    ∃ cs, runGatewayUpdate WorldRunner req w =
        phaseBuild WorldRunner req
          ⟨{ w with current := ct }, cs, req.timeoutMs, 0, false⟩
          w.current (some ct) ∧
      installCmd ∉ cs ∧ buildCmd ∉ cs ∧ uiBuildCmd ∉ cs ∧ doctorCmd ∉ cs := by
  have e1 := reach_plan w req h.toPlanEnv
  have e2 := plan_step w req
    [showToplevelCmd req.cwd, revParseHeadCmd req.cwd, statusCmd req.cwd,
     fetchCmd req.cwd] t ct h.toTargetEnv
  have e3 := checkout_step w req
    ([showToplevelCmd req.cwd, revParseHeadCmd req.cwd, statusCmd req.cwd,
      fetchCmd req.cwd] ++ [tagListCmd req.cwd, revParseRefCmd req.cwd t])
    t ct h.toTargetEnv
  cases htr : w.tracked ct protectedEntry with
  | false =>
    have e4 := restore_skip { w with current := ct } req
      ([showToplevelCmd req.cwd, revParseHeadCmd req.cwd, statusCmd req.cwd,
        fetchCmd req.cwd] ++ [tagListCmd req.cwd, revParseRefCmd req.cwd t]
        ++ [checkoutDetachCmd req.cwd t])
      w.current (some ct) h.hT (fun a => h.hdur a) htr
    refine ⟨_, by rw [e1, e2, e3, e4], ?_, ?_, ?_, ?_⟩ <;>
      simp [showToplevelCmd, revParseHeadCmd, statusCmd, fetchCmd, tagListCmd,
        revParseRefCmd, checkoutDetachCmd, isTrackedAtCommitCmd, gitCmd,
        installCmd, buildCmd, uiBuildCmd, doctorCmd]
  | true =>
    have e4 := restore_take { w with current := ct } req
      ([showToplevelCmd req.cwd, revParseHeadCmd req.cwd, statusCmd req.cwd,
        fetchCmd req.cwd] ++ [tagListCmd req.cwd, revParseRefCmd req.cwd t]
        ++ [checkoutDetachCmd req.cwd t])
      w.current (some ct) h.hT (fun a => h.hdur a) htr h.hrestore
    refine ⟨_, by rw [e1, e2, e3, e4], ?_, ?_, ?_, ?_⟩ <;>
      simp [showToplevelCmd, revParseHeadCmd, statusCmd, fetchCmd, tagListCmd,
        revParseRefCmd, checkoutDetachCmd, isTrackedAtCommitCmd, restoreCmd,
        gitCmd, installCmd, buildCmd, uiBuildCmd, doctorCmd]

/-- With no channel candidate and an empty tag list, planning is a hard
`VersionResolutionError`. -/
theorem plan_nocand_empty (w : World) (req : UpdateRequest)
    (cs : List (List String)) (hT : req.timeoutMs ≠ 0) (hdur : ∀ a, w.dur a = 0)
    (hTags : parseTags (renderTags w.tags) = w.tags)
    (hempty : w.tags = []) :
    phasePlan WorldRunner req ⟨w, cs, req.timeoutMs, 0, false⟩ w.current =
      (errorResult w.current w.current .versionResolutionError
         "no matching version" false false,
       ⟨w, cs ++ [tagListCmd req.cwd], req.timeoutMs, 0, false⟩) := by
  have hTags2 : parseTags (renderTags []) = ([] : List String) := hempty ▸ hTags
  simp [phasePlan, invoke_zero, WorldRunner, worldRun_tagList, hT, hdur,
    hempty, hTags2]

/-- With no channel candidate and two or more available tags, planning is a
hard `VersionResolutionError`. -/
theorem plan_nocand_multi (w : World) (req : UpdateRequest)
    (cs : List (List String)) (a b : String) (rest : List String)
    (hT : req.timeoutMs ≠ 0) (hdur : ∀ a, w.dur a = 0)
    (hTags : parseTags (renderTags w.tags) = w.tags)
    (hfilter : w.tags.filter (channelMatches req.channel) = [])
    (hmulti : w.tags = a :: b :: rest) :
    phasePlan WorldRunner req ⟨w, cs, req.timeoutMs, 0, false⟩ w.current =
      (errorResult w.current w.current .versionResolutionError
         "no matching version" false false,
       ⟨w, cs ++ [tagListCmd req.cwd], req.timeoutMs, 0, false⟩) := by
  have hTags2 : parseTags (renderTags (a :: b :: rest)) = a :: b :: rest :=
    hmulti ▸ hTags
  have hfilter2 : (a :: b :: rest).filter (channelMatches req.channel) = [] :=
    hmulti ▸ hfilter
  simp [phasePlan, invoke_zero, WorldRunner, worldRun_tagList, hT, hdur,
    hmulti, hTags2, hfilter2]

/-- With no channel candidate but a single available tag resolving to the
current commit, planning ends in a `no-op`. -/
theorem plan_nocand_single_noop (w : World) (req : UpdateRequest)
    (cs : List (List String)) (t c : String)
    (hT : req.timeoutMs ≠ 0) (hdur : ∀ a, w.dur a = 0)
    (hTags : parseTags (renderTags w.tags) = w.tags)
    (hfilter : w.tags.filter (channelMatches req.channel) = [])
    (hsingle : w.tags = [t])
    (hname1 : t ≠ "--show-toplevel") (hname2 : t ≠ "HEAD")
    (hres : w.resolveRef t = some c) (hmatch : strTrim c = w.current) :
    phasePlan WorldRunner req ⟨w, cs, req.timeoutMs, 0, false⟩ w.current =
      (noopResult w.current,
       ⟨w, cs ++ [tagListCmd req.cwd, revParseRefCmd req.cwd t],
        req.timeoutMs, 0, false⟩) := by
  have hTags2 : parseTags (renderTags [t]) = [t] := hsingle ▸ hTags
  have hfilter2 : [t].filter (channelMatches req.channel) = [] :=
    hsingle ▸ hfilter
  simp [phasePlan, invoke_zero, WorldRunner, worldRun_tagList, worldRun_revRef,
    revParseResult_of_resolve _ _ _ hname1 hname2 hres, hT, hdur,
    hsingle, hTags2, hfilter2, hmatch]

/-- With no channel candidate and the single available tag unresolvable,
planning is a hard `VersionResolutionError`. -/
theorem plan_nocand_single_unresolved (w : World) (req : UpdateRequest)
    (cs : List (List String)) (t : String)
    (hT : req.timeoutMs ≠ 0) (hdur : ∀ a, w.dur a = 0)
    (hTags : parseTags (renderTags w.tags) = w.tags)
    (hfilter : w.tags.filter (channelMatches req.channel) = [])
    (hsingle : w.tags = [t])
    (hname1 : t ≠ "--show-toplevel") (hname2 : t ≠ "HEAD")
    (hres : w.resolveRef t = none) :
    phasePlan WorldRunner req ⟨w, cs, req.timeoutMs, 0, false⟩ w.current =
      (errorResult w.current w.current .versionResolutionError
         "no matching version" false false,
       ⟨w, cs ++ [tagListCmd req.cwd, revParseRefCmd req.cwd t],
        req.timeoutMs, 0, false⟩) := by
  have hTags2 : parseTags (renderTags [t]) = [t] := hsingle ▸ hTags
  have hfilter2 : [t].filter (channelMatches req.channel) = [] :=
    hsingle ▸ hfilter
  simp [phasePlan, invoke_zero, WorldRunner, worldRun_tagList, worldRun_revRef,
    revParseResult_of_unresolved _ _ hname1 hname2 hres, hT, hdur,
    hsingle, hTags2, hfilter2]

/-- With no channel candidate and the single available tag resolving to a
different commit, planning is a hard `VersionResolutionError`. -/
theorem plan_nocand_single_mismatch (w : World) (req : UpdateRequest)
    (cs : List (List String)) (t c : String)
    (hT : req.timeoutMs ≠ 0) (hdur : ∀ a, w.dur a = 0)
    (hTags : parseTags (renderTags w.tags) = w.tags)
    (hfilter : w.tags.filter (channelMatches req.channel) = [])
    (hsingle : w.tags = [t])
    (hname1 : t ≠ "--show-toplevel") (hname2 : t ≠ "HEAD")
    (hres : w.resolveRef t = some c) (hmismatch : strTrim c ≠ w.current) :
    phasePlan WorldRunner req ⟨w, cs, req.timeoutMs, 0, false⟩ w.current =
      (errorResult w.current w.current .versionResolutionError
         "no matching version" false false,
       ⟨w, cs ++ [tagListCmd req.cwd, revParseRefCmd req.cwd t],
        req.timeoutMs, 0, false⟩) := by
  have hTags2 : parseTags (renderTags [t]) = [t] := hsingle ▸ hTags
  have hfilter2 : [t].filter (channelMatches req.channel) = [] :=
    hsingle ▸ hfilter
  simp [phasePlan, invoke_zero, WorldRunner, worldRun_tagList, worldRun_revRef,
    revParseResult_of_resolve _ _ _ hname1 hname2 hres, hT, hdur,
    hsingle, hTags2, hfilter2, hmismatch]

/-! ## Properties of the slug sanitizer -/

theorem slugMapChar_ok (c : Char) : isSlugChar (slugMapChar c) = true := by
  unfold slugMapChar
  split
  · assumption
  · decide

theorem collapseDashes_all (p : Char → Bool) :
    ∀ l : List Char, l.all p = true → (collapseDashes l).all p = true
  | [], h => by simp [collapseDashes]
  | [c], h => by simpa [collapseDashes] using h
  | a :: b :: rest, h => by
    have hb : (b :: rest).all p = true := by
      simp [List.all_cons] at h ⊢
      exact h.2
    have ha : p a = true := by
      simp [List.all_cons] at h
      exact h.1
    have ih := collapseDashes_all p (b :: rest) hb
    cases hd : (a = '-' && b = '-') with
    | true => simp [collapseDashes, hd, ih]
    | false => simp [collapseDashes, hd, List.all_cons, ha, ih]

theorem collapseDashes_cons_head (b : Char) :
    ∀ rest : List Char, ∃ tl, collapseDashes (b :: rest) = b :: tl
  | [] => ⟨[], rfl⟩
  | c :: rs => by
    cases hd : (b = '-' && c = '-') with
    | true =>
      obtain ⟨tl, htl⟩ := collapseDashes_cons_head c rs
      have hbc : b = '-' ∧ c = '-' := by simpa using hd
      refine ⟨tl, ?_⟩
      rw [show collapseDashes (b :: c :: rs) = collapseDashes (c :: rs) by
            simp [collapseDashes, hd], htl, hbc.1, hbc.2]
    | false =>
      exact ⟨collapseDashes (c :: rs), by simp [collapseDashes, hd]⟩

theorem collapseDashes_noAdj : ∀ l : List Char, noAdjDash (collapseDashes l) = true
  | [] => rfl
  | [_] => by simp [collapseDashes, noAdjDash]
  | a :: b :: rest => by
    have ih := collapseDashes_noAdj (b :: rest)
    cases hd : (a = '-' && b = '-') with
    | true => simpa [collapseDashes, hd] using ih
    | false =>
      obtain ⟨tl, htl⟩ := collapseDashes_cons_head b rest
      rw [show collapseDashes (a :: b :: rest) =
            a :: collapseDashes (b :: rest) by simp [collapseDashes, hd], htl]
      rw [htl] at ih
      simp [noAdjDash, hd, ih]

theorem dropLeadDash_head (l : List Char) (h : noAdjDash l = true) :
    (dropLeadDash l).head? ≠ some '-' := by
  match l with
  | [] => simp [dropLeadDash]
  | c :: rest =>
    by_cases hc : c = '-'
    · rw [dropLeadDash, if_pos hc]
      match rest with
      | [] => simp
      | d :: rs =>
        subst hc
        simp [noAdjDash] at h
        simp [h.1]
    · rw [dropLeadDash, if_neg hc]
      simp [hc]

theorem dropLeadDash_sub (l : List Char) :
    dropLeadDash l = l ∨ dropLeadDash l = l.tail := by
  match l with
  | [] => exact Or.inl rfl
  | c :: rest =>
    by_cases hc : c = '-'
    · right
      rw [dropLeadDash, if_pos hc]
      rfl
    · left
      rw [dropLeadDash, if_neg hc]

theorem dropTrailDash_cases (l : List Char) :
    dropTrailDash l = l ∨ dropTrailDash l = l.dropLast := by
  unfold dropTrailDash
  rcases dropLeadDash_sub l.reverse with he | he
  · left
    rw [he, List.reverse_reverse]
  · right
    rw [he]
    cases hm : l.reverse with
    | nil =>
      have : l = [] := by simpa using congrArg List.reverse hm
      simp [this]
    | cons c r =>
      have hl : l = r.reverse ++ [c] := by
        have := congrArg List.reverse hm
        simpa using this
      rw [hl, List.dropLast_concat]
      simp

theorem dropTrailDash_head (l : List Char) (h : l.head? ≠ some '-') :
    (dropTrailDash l).head? ≠ some '-' := by
  rcases dropTrailDash_cases l with he | he
  · rw [he]; exact h
  · rw [he]
    cases l with
    | nil => simp
    | cons a t =>
      cases t with
      | nil => simp
      | cons b t2 =>
        simp [List.dropLast]
        simpa using h

theorem dropLeadDash_subset (l : List Char) : ∀ x ∈ dropLeadDash l, x ∈ l := by
  intro x hx
  rcases dropLeadDash_sub l with he | he
  · rwa [he] at hx
  · rw [he] at hx
    exact List.mem_of_mem_tail hx

theorem dropTrailDash_subset (l : List Char) : ∀ x ∈ dropTrailDash l, x ∈ l := by
  intro x hx
  rcases dropTrailDash_cases l with he | he
  · rwa [he] at hx
  · rw [he] at hx
    exact List.dropLast_subset l hx

theorem take_head (l : List Char) :
    (l.take 30).head? = l.head? := by
  cases l <;> rfl

theorem sanitize_chain_all (m : List Char) (hall : m.all isSlugChar = true) :
    ((dropTrailDash (dropLeadDash (collapseDashes m))).take 30).all
      isSlugChar = true := by
  have hcol := collapseDashes_all isSlugChar _ hall
  rw [List.all_eq_true] at hcol ⊢
  intro x hx
  exact hcol x (dropLeadDash_subset _ _ (dropTrailDash_subset _ _
    (List.take_subset 30 _ hx)))

theorem sanitize_chain_head (m : List Char) :
    ((dropTrailDash (dropLeadDash (collapseDashes m))).take 30).head? ≠
      some '-' := by
  rw [take_head]
  exact dropTrailDash_head _ (dropLeadDash_head _ (collapseDashes_noAdj m))

theorem sanitizeSlug_ok (s : String) : slugOk (sanitizeSlug s) = true := by
  unfold sanitizeSlug
  have hall : (((strTrim s).data.map Char.toLower).map slugMapChar).all
      isSlugChar = true := by
    rw [List.all_eq_true]
    intro x hx
    obtain ⟨y, _, rfl⟩ := List.mem_map.mp hx
    exact slugMapChar_ok _
  have hA := sanitize_chain_all _ hall
  have hH := sanitize_chain_head (((strTrim s).data.map Char.toLower).map slugMapChar)
  have hL : ((dropTrailDash (dropLeadDash (collapseDashes
      (((strTrim s).data.map Char.toLower).map slugMapChar)))).take 30).length ≤
      30 := by
    rw [List.length_take]
    exact min_le_left _ _
  rcases hshape : (dropTrailDash (dropLeadDash (collapseDashes
      (((strTrim s).data.map Char.toLower).map slugMapChar)))).take 30 with
    _ | ⟨c, tl⟩
  · simp [slugOk]
  · rw [hshape] at hA hH hL
    have hc : ¬c = '-' := by
      intro hcd
      exact hH (by rw [hcd]; rfl)
    have hL2 : tl.length ≤ 29 := by
      simp [List.length_cons] at hL
      omega
    simp [slugOk, hA, hL2, hc]

/-! ## Claim theorems -/

/-- C8: `generateSlugViaLLM` never throws (it is a total function of the
agent's reply), and for every input it returns either `null` or a non-empty
string of length at most 30 consisting only of lowercase letters, digits and
hyphens, with no leading hyphen. -/
theorem generateSlugViaLLM_shape (t : Option String) :
    slugOk (generateSlugViaLLM t) = true := by
  cases t with
  | none => rfl
  | some text => exact sanitizeSlug_ok text

/-- C9: when the provider's `streamToolCalls` is not explicitly `false` —
including an undefined configuration, an absent provider, or the flag unset
or `true` — `createOllamaAwareStreamFn` returns the supplied base stream
function itself; the non-streaming wrapper path is taken exactly when
`streamToolCalls` is explicitly `false` and the call context contains at
least one tool. -/
theorem ollama_stream_selection (α : Type) (cfg : Option OpenClawConfig)
    (provider : String) (base : α) (wrap : α → α) (ctx : StreamContext) :
    (shouldDisableStreamingForTools cfg provider = false →
      createOllamaAwareStreamFn cfg provider base wrap = base) ∧
    (ollamaAwareCallPath cfg provider ctx = .viaComplete ↔
      (shouldDisableStreamingForTools cfg provider = true ∧
       contextHasTools ctx = true)) := by
  constructor
  · intro h
    simp [createOllamaAwareStreamFn, h]
  · unfold ollamaAwareCallPath wrappedCallPath
    cases hd : shouldDisableStreamingForTools cfg provider <;>
      cases ht : contextHasTools ctx <;> simp [hd, ht]

/-- Witness for C9 at a configuration whose provider entry has no
`streamToolCalls` field and a context with one tool. -/
theorem ollama_stream_selection_witness :
    createOllamaAwareStreamFn (some noDisableCfg) "openai" (0 : Nat)
      Nat.succ = 0 ∧
    (ollamaAwareCallPath (some noDisableCfg) "openai" oneToolCtx =
        .viaComplete ↔
      (shouldDisableStreamingForTools (some noDisableCfg) "openai" = true ∧
       contextHasTools oneToolCtx = true)) :=
  ⟨(ollama_stream_selection Nat (some noDisableCfg) "openai" 0 Nat.succ
      oneToolCtx).1 (by decide),
   (ollama_stream_selection Nat (some noDisableCfg) "openai" 0 Nat.succ
      oneToolCtx).2⟩

theorem getRoomInfo_hit (env : RoomEnv) (cache : RoomCache) (roomId : String)
    (i : MatrixRoomInfo) (h : cache.lookup roomId = some i) :
    getRoomInfo env cache roomId = (i, cache, false) := by
  unfold getRoomInfo
  rw [h]

theorem getRoomInfo_lookup (env : RoomEnv) (cache : RoomCache)
    (roomId : String) :
    ((getRoomInfo env cache roomId).2.1).lookup roomId =
      some (getRoomInfo env cache roomId).1 := by
  unfold getRoomInfo
  cases hl : cache.lookup roomId with
  | some v => simp [hl]
  | none =>
    cases hm : env.mongo roomId with
    | some doc =>
      cases hn : (doc.name.isSome || doc.canonicalAlias.isSome) with
      | true => simp [hn, List.lookup]
      | false => simp [hn, List.lookup]
    | none => simp [List.lookup]

/-- C10: once `getRoomInfo` has resolved a value for a room identifier, every
subsequent call with the same identifier returns that same cached value with
no further Mongo or Matrix lookup — even against a changed external world, so
later changes to the room's name or aliases are never observed. -/
theorem getRoomInfo_cached (env env' : RoomEnv) (cache : RoomCache)
    (roomId : String) :
    getRoomInfo env' (getRoomInfo env cache roomId).2.1 roomId =
      ((getRoomInfo env cache roomId).1,
       (getRoomInfo env cache roomId).2.1, false) :=
  getRoomInfo_hit env' _ roomId _ (getRoomInfo_lookup env cache roomId)

/-! ### Scenario bundle instances -/

theorem baseWorld_success : SuccessEnv baseWorld stdReq "v1.0.1" "def456" :=
  ⟨⟨⟨by decide, fun _ => rfl, rfl, by decide, rfl, rfl, by decide⟩,
    by decide, by decide, ⟨[], by decide⟩, by decide, by decide, by decide⟩,
   rfl, rfl, rfl, rfl, rfl⟩

theorem installFailWorld_buildPhase :
    BuildPhaseEnv installFailWorld stdReq "v1.0.1" "def456" :=
  ⟨⟨⟨by decide, fun _ => rfl, rfl, by decide, rfl, rfl, by decide⟩,
    by decide, by decide, ⟨[], by decide⟩, by decide, by decide, by decide⟩,
   rfl, by decide⟩

theorem atTargetWorld_noop : NoopEnv atTargetWorld stdReq "v1.0.1" :=
  ⟨⟨by decide, fun _ => rfl, rfl, by decide, rfl, rfl, by decide⟩,
   by decide, by decide, ⟨[], by decide⟩, by decide⟩

theorem atTargetWorld_beta_plan : PlanEnv atTargetWorld betaReq :=
  ⟨by decide, fun _ => rfl, rfl, by decide, rfl, rfl, by decide⟩

/-- C1: `isTrackedAtCommit` returns true iff the content-existence command
exits 0, treating every nonzero exit as "not tracked" rather than an error;
consequently an update whose protected-asset existence check exits nonzero
still proceeds to `ok` (build and health check succeeding) and never issues
a restore/checkout command for the protected path. -/
theorem isTrackedAtCommit_spec :
    (∀ (σ : Type) (r : Runner σ) (env : σ) (cwd commitId relPath : String),
       ((isTrackedAtCommit r env cwd commitId relPath).1 = true ↔
         (r.run env (isTrackedAtCommitCmd cwd commitId relPath)).1.code = 0)) ∧
    (∀ (w : World) (req : UpdateRequest) (t ct : String),
       SuccessEnv w req t ct → w.tracked ct protectedEntry = false →
         (runGatewayUpdate WorldRunner req w).1.status = .ok ∧
         ((runGatewayUpdate WorldRunner req w).2.calls.all
           (fun c => !isProtectedRestoreCall c)) = true) := by
  constructor
  · intro σ r env cwd cid p
    simp [isTrackedAtCommit]
  · intro w req t ct h htr
    obtain ⟨h1, _, h3⟩ := run_success w req t ct h
    refine ⟨?_, h3 htr⟩
    rw [h1]
    rfl

/-- Witness for C1: the iff at a concrete probe, and the untracked scenario
reaching `ok`. -/
theorem isTrackedAtCommit_spec_witness :
    ((isTrackedAtCommit WorldRunner baseWorld "/srv/moltbot" "HEAD"
        protectedEntry).1 = true ↔
      (WorldRunner.run baseWorld
        (isTrackedAtCommitCmd "/srv/moltbot" "HEAD" protectedEntry)).1.code
        = 0) ∧
    (runGatewayUpdate WorldRunner stdReq baseWorld).1.status = .ok :=
  ⟨isTrackedAtCommit_spec.1 World WorldRunner baseWorld "/srv/moltbot" "HEAD"
     protectedEntry,
   (isTrackedAtCommit_spec.2 baseWorld stdReq "v1.0.1" "def456"
     baseWorld_success (by decide)).1⟩

/-- C2: the test scenario — current commit `abc123`, tag `v1.0.1`, protected
asset absent from the target, all pipeline commands succeeding, final commit
`def456` — yields status `ok` from `abc123` to `def456` with no checkout of
the protected asset path among the issued commands. -/
theorem update_test_scenario :
    (runGatewayUpdate WorldRunner stdReq baseWorld).1.status = .ok ∧
    (runGatewayUpdate WorldRunner stdReq baseWorld).1.fromCommit = "abc123" ∧
    (runGatewayUpdate WorldRunner stdReq baseWorld).1.toCommit = "def456" ∧
    ((runGatewayUpdate WorldRunner stdReq baseWorld).2.calls.all
      (fun c => !isProtectedRestoreCall c)) = true := by
  decide

/-- C3: whenever a build-pipeline command (install, build, UI build) exits
nonzero, the later pipeline commands are never run, the repository is rolled
back to the originating commit, and the result is `error` of kind
`BuildError` carrying the failing command's stderr. -/
theorem build_failure_rolls_back (w : World) (req : UpdateRequest)
    (t ct : String) (h : BuildPhaseEnv w req t ct) :
    (w.installRes.code ≠ 0 →
      (runGatewayUpdate WorldRunner req w).1 =
        errorResult w.current w.current .buildError w.installRes.stderr
          true false ∧
      (runGatewayUpdate WorldRunner req w).2.env.current = w.current ∧
      buildCmd ∉ (runGatewayUpdate WorldRunner req w).2.calls ∧
      uiBuildCmd ∉ (runGatewayUpdate WorldRunner req w).2.calls ∧
      doctorCmd ∉ (runGatewayUpdate WorldRunner req w).2.calls) ∧
    (w.installRes.code = 0 → w.buildRes.code ≠ 0 →
      (runGatewayUpdate WorldRunner req w).1 =
        errorResult w.current w.current .buildError w.buildRes.stderr
          true false ∧
      (runGatewayUpdate WorldRunner req w).2.env.current = w.current ∧
      uiBuildCmd ∉ (runGatewayUpdate WorldRunner req w).2.calls ∧
      doctorCmd ∉ (runGatewayUpdate WorldRunner req w).2.calls) ∧
    (w.installRes.code = 0 → w.buildRes.code = 0 → w.uiBuildRes.code ≠ 0 →
      (runGatewayUpdate WorldRunner req w).1 =
        errorResult w.current w.current .buildError w.uiBuildRes.stderr
          true false ∧
      (runGatewayUpdate WorldRunner req w).2.env.current = w.current ∧
      doctorCmd ∉ (runGatewayUpdate WorldRunner req w).2.calls) := by
  obtain ⟨cs, e, hin, hbu, hui', hdo⟩ := reach_build w req t ct h
  refine ⟨fun h1 => ?_, fun h1 h2 => ?_, fun h1 h2 h3 => ?_⟩
  · rw [e, build_fail_install { w with current := ct } req cs w.current
      (some ct) h.hT (fun a => h.hdur a) h1 h.horigin]
    simp only [installCmd, buildCmd, uiBuildCmd, doctorCmd, checkoutDetachCmd,
      gitCmd] at hbu hui' hdo ⊢
    refine ⟨trivial, trivial, ?_, ?_, ?_⟩ <;> simp [hbu, hui', hdo]
  · rw [e, build_fail_build { w with current := ct } req cs w.current
      (some ct) h.hT (fun a => h.hdur a) h1 h2 h.horigin]
    simp only [installCmd, buildCmd, uiBuildCmd, doctorCmd, checkoutDetachCmd,
      gitCmd] at hui' hdo ⊢
    refine ⟨trivial, trivial, ?_, ?_⟩ <;> simp [hui', hdo]
  · rw [e, build_fail_ui { w with current := ct } req cs w.current
      (some ct) h.hT (fun a => h.hdur a) h1 h2 h3 h.horigin]
    simp only [installCmd, buildCmd, uiBuildCmd, doctorCmd, checkoutDetachCmd,
      gitCmd] at hdo ⊢
    refine ⟨trivial, trivial, ?_⟩
    simp [hdo]

/-- Witness for C3: the failing-install scenario. -/
theorem build_failure_rolls_back_witness :
    (runGatewayUpdate WorldRunner stdReq installFailWorld).1 =
      errorResult installFailWorld.current installFailWorld.current
        .buildError installFailWorld.installRes.stderr true false ∧
    (runGatewayUpdate WorldRunner stdReq installFailWorld).2.env.current =
      installFailWorld.current ∧
    buildCmd ∉ (runGatewayUpdate WorldRunner stdReq installFailWorld).2.calls ∧
    uiBuildCmd ∉
      (runGatewayUpdate WorldRunner stdReq installFailWorld).2.calls ∧
    doctorCmd ∉
      (runGatewayUpdate WorldRunner stdReq installFailWorld).2.calls :=
  (build_failure_rolls_back installFailWorld stdReq "v1.0.1" "def456"
    installFailWorld_buildPhase).1 (by decide)

/-- C4: when the resolved target already equals the current commit the update
is a `no-op` from and to the current commit, no mutating command (checkout,
restore, build) is ever invoked, and the working directory is unchanged. -/
theorem noop_no_mutation (w : World) (req : UpdateRequest) (t : String)
    (h : NoopEnv w req t) :
    (runGatewayUpdate WorldRunner req w).1 = noopResult w.current ∧
    (runGatewayUpdate WorldRunner req w).1.fromCommit = w.current ∧
    (runGatewayUpdate WorldRunner req w).1.toCommit = w.current ∧
    ((runGatewayUpdate WorldRunner req w).2.calls.all
      (fun c => !isMutatingCall c)) = true ∧
    (runGatewayUpdate WorldRunner req w).2.env = w := by
  rw [run_noop w req t h]
  exact ⟨rfl, rfl, rfl, rfl, rfl⟩

/-- Witness for C4: the already-at-target scenario. -/
theorem noop_no_mutation_witness :
    (runGatewayUpdate WorldRunner stdReq atTargetWorld).1 =
      noopResult atTargetWorld.current ∧
    ((runGatewayUpdate WorldRunner stdReq atTargetWorld).2.calls.all
      (fun c => !isMutatingCall c)) = true :=
  ⟨(noop_no_mutation atTargetWorld stdReq "v1.0.1" atTargetWorld_noop).1,
   (noop_no_mutation atTargetWorld stdReq "v1.0.1" atTargetWorld_noop).2.2.2.1⟩

/-- C6: running the update twice in succession against the same working
directory with the same resolved target, the first run succeeding, yields
`ok` and then `no-op`. -/
theorem update_idempotent (w : World) (req : UpdateRequest) (t ct : String)
    (h : SuccessEnv w req t ct) :
    (runGatewayUpdate WorldRunner req w).1.status = .ok ∧
    (runGatewayUpdate WorldRunner req
      (runGatewayUpdate WorldRunner req w).2.env).1.status = .noop := by
  obtain ⟨h1, h2, _⟩ := run_success w req t ct h
  constructor
  · rw [h1]
    rfl
  · rw [h2]
    have hn : NoopEnv { w with current := ct } req t :=
      ⟨⟨h.hT, fun a => h.hdur a, h.hrepo, h.hct, h.hclean, h.hfetch, h.hTags⟩,
       h.hname1, h.hname2, h.hcand, h.hres⟩
    rw [run_noop _ req t hn]
    rfl

/-- Witness for C6: the test scenario run twice. -/
theorem update_idempotent_witness :
    (runGatewayUpdate WorldRunner stdReq baseWorld).1.status = .ok ∧
    (runGatewayUpdate WorldRunner stdReq
      (runGatewayUpdate WorldRunner stdReq baseWorld).2.env).1.status =
      .noop :=
  update_idempotent baseWorld stdReq "v1.0.1" "def456" baseWorld_success

/-- C7: when no tag matches the channel filter (or the tag list is empty),
the run ends in `no-op` exactly in the case of a single available tag whose
commit is the current commit; in every other such case it is a hard
`VersionResolutionError`. -/
theorem no_candidate_resolution (w : World) (req : UpdateRequest)
    (h : PlanEnv w req)
    (hfilter : w.tags.filter (channelMatches req.channel) = []) :
    (w.tags = [] →
      (runGatewayUpdate WorldRunner req w).1 =
        errorResult w.current w.current .versionResolutionError
          "no matching version" false false) ∧
    (∀ t c, w.tags = [t] → t ≠ "--show-toplevel" → t ≠ "HEAD" →
      w.resolveRef t = some c → strTrim c = w.current →
      (runGatewayUpdate WorldRunner req w).1 = noopResult w.current) ∧
    (∀ t, w.tags = [t] → t ≠ "--show-toplevel" → t ≠ "HEAD" →
      w.resolveRef t = none →
      (runGatewayUpdate WorldRunner req w).1 =
        errorResult w.current w.current .versionResolutionError
          "no matching version" false false) ∧
    (∀ t c, w.tags = [t] → t ≠ "--show-toplevel" → t ≠ "HEAD" →
      w.resolveRef t = some c → strTrim c ≠ w.current →
      (runGatewayUpdate WorldRunner req w).1 =
        errorResult w.current w.current .versionResolutionError
          "no matching version" false false) ∧
    (∀ a b rest, w.tags = a :: b :: rest →
      (runGatewayUpdate WorldRunner req w).1 =
        errorResult w.current w.current .versionResolutionError
          "no matching version" false false) := by
  refine ⟨fun hempty => ?_, fun t c h1 h2 h3 h4 h5 => ?_,
    fun t h1 h2 h3 h4 => ?_, fun t c h1 h2 h3 h4 h5 => ?_,
    fun a b rest h1 => ?_⟩
  · rw [reach_plan w req h,
      plan_nocand_empty w req _ h.hT h.hdur h.hTags hempty]
  · rw [reach_plan w req h,
      plan_nocand_single_noop w req _ t c h.hT h.hdur h.hTags hfilter h1 h2
        h3 h4 h5]
  · rw [reach_plan w req h,
      plan_nocand_single_unresolved w req _ t h.hT h.hdur h.hTags hfilter h1
        h2 h3 h4]
  · rw [reach_plan w req h,
      plan_nocand_single_mismatch w req _ t c h.hT h.hdur h.hTags hfilter h1
        h2 h3 h4 h5]
  · rw [reach_plan w req h,
      plan_nocand_multi w req _ a b rest h.hT h.hdur h.hTags hfilter h1]

/-- Witness for C7: a beta-channel request against a repository whose single
(stable) tag points at the current commit yields a `no-op`. -/
theorem no_candidate_resolution_witness :
    (runGatewayUpdate WorldRunner betaReq atTargetWorld).1 =
      noopResult atTargetWorld.current :=
  (no_candidate_resolution atTargetWorld betaReq atTargetWorld_beta_plan
    (by decide)).2.1 "v1.0.1" "abc123" (by decide) (by decide) (by decide)
    (by decide) (by decide)

/-! ## The time-budget model

The lemmas below trace the budget bookkeeping through every phase: the
elapsed/remaining sum is invariant, a cancellation is always surfaced as a
`TimeoutError` error, and a missing rollback on timeout can only happen while
the trace holds no mutating command. -/

theorem invoke_budget (r : Runner σ) (s : Exec σ) (a : List String) :
    (invoke r s a).2.elapsed + (invoke r s a).2.remaining =
      s.elapsed + s.remaining := by
  unfold invoke
  split
  · rfl
  · split
    · simp
    · simp
      omega

theorem invoke_timedOut_cancelled (r : Runner σ) (s : Exec σ)
    (a : List String) (e : Exec σ) (h : invoke r s a = (.timedOut, e)) :
    e.cancelled = true := by
  unfold invoke at h
  split at h
  · rw [Prod.mk.injEq] at h
    rw [← h.2]
  · split at h
    · rw [Prod.mk.injEq] at h
      rw [← h.2]
    · rw [Prod.mk.injEq] at h
      exact absurd h.1 (by simp)

theorem invoke_timedOut_calls (r : Runner σ) (s : Exec σ)
    (a : List String) (e : Exec σ) (h : invoke r s a = (.timedOut, e)) :
    e.calls = s.calls ∨ e.calls = s.calls ++ [a] := by
  unfold invoke at h
  split at h
  · rw [Prod.mk.injEq] at h
    rw [← h.2]
    exact Or.inl rfl
  · split at h
    · rw [Prod.mk.injEq] at h
      rw [← h.2]
      exact Or.inr rfl
    · rw [Prod.mk.injEq] at h
      exact absurd h.1 (by simp)

theorem invoke_completed_state (r : Runner σ) (s : Exec σ) (a : List String)
    (o : CommandOutcome) (e : Exec σ) (h : invoke r s a = (.completed o, e)) :
    e.cancelled = s.cancelled ∧ e.calls = s.calls ++ [a] := by
  unfold invoke at h
  split at h
  · rw [Prod.mk.injEq] at h
    exact absurd h.1 (by simp)
  · split at h
    · rw [Prod.mk.injEq] at h
      exact absurd h.1 (by simp)
    · rw [Prod.mk.injEq] at h
      rw [← h.2]
      exact ⟨rfl, rfl⟩

theorem rollbackTo_res (r : Runner σ) (s : Exec σ) (cwd origin : String)
    (k : FailureKind) (msg : String) :
    (rollbackTo r s cwd origin k msg).1.status = .error ∧
    (rollbackTo r s cwd origin k msg).1.failure = some k ∧
    (rollbackTo r s cwd origin k msg).1.rollbackAttempted = true :=
  ⟨rfl, rfl, rfl⟩

theorem rollbackTo_exec (r : Runner σ) (s : Exec σ) (cwd origin : String)
    (k : FailureKind) (msg : String) :
    (rollbackTo r s cwd origin k msg).2.cancelled = s.cancelled ∧
    (rollbackTo r s cwd origin k msg).2.elapsed = s.elapsed ∧
    (rollbackTo r s cwd origin k msg).2.remaining = s.remaining :=
  ⟨rfl, rfl, rfl⟩

theorem timeoutResult_res (r : Runner σ) (s : Exec σ) (cwd origin : String)
    (m : Bool) :
    (timeoutResult r s cwd origin m).1.status = .error ∧
    (timeoutResult r s cwd origin m).1.failure = some .timeoutError ∧
    (timeoutResult r s cwd origin m).1.rollbackAttempted = m := by
  cases m <;> exact ⟨rfl, rfl, rfl⟩

theorem timeoutResult_exec (r : Runner σ) (s : Exec σ) (cwd origin : String)
    (m : Bool) :
    (timeoutResult r s cwd origin m).2.cancelled = s.cancelled ∧
    (timeoutResult r s cwd origin m).2.elapsed = s.elapsed ∧
    (timeoutResult r s cwd origin m).2.remaining = s.remaining := by
  cases m <;> exact ⟨rfl, rfl, rfl⟩

theorem timeoutResult_calls_false (r : Runner σ) (s : Exec σ)
    (cwd origin : String) :
    (timeoutResult r s cwd origin false).2.calls = s.calls := rfl

theorem isMutatingCall_toplevel (cwd : String) :
    isMutatingCall (showToplevelCmd cwd) = false := rfl

theorem isMutatingCall_revHead (cwd : String) :
    isMutatingCall (revParseHeadCmd cwd) = false := rfl

theorem isMutatingCall_status (cwd : String) :
    isMutatingCall (statusCmd cwd) = false := rfl

theorem isMutatingCall_fetch (cwd : String) :
    isMutatingCall (fetchCmd cwd) = false := rfl

theorem isMutatingCall_tagList (cwd : String) :
    isMutatingCall (tagListCmd cwd) = false := rfl

theorem isMutatingCall_revRef (cwd t : String) :
    isMutatingCall (revParseRefCmd cwd t) = false := rfl

theorem all_nonmut_append (cs : List (List String)) (a : List String)
    (h : cs.all (fun c => !isMutatingCall c) = true)
    (ha : isMutatingCall a = false) :
    (cs ++ [a]).all (fun c => !isMutatingCall c) = true := by
  simp [List.all_append, h, ha]

theorem phaseVerify_spec (r : Runner σ) (req : UpdateRequest) (s : Exec σ)
    (origin : String) (tc : Option String) :
    ((phaseVerify r req s origin tc).2.elapsed +
       (phaseVerify r req s origin tc).2.remaining =
       s.elapsed + s.remaining) ∧
    (s.cancelled = false →
      (phaseVerify r req s origin tc).2.cancelled = true →
      (phaseVerify r req s origin tc).1.status = .error ∧
      (phaseVerify r req s origin tc).1.failure = some .timeoutError) ∧
    ((phaseVerify r req s origin tc).1.failure = some .timeoutError →
      (phaseVerify r req s origin tc).1.rollbackAttempted = true) := by
  have hb := invoke_budget r s (revParseHeadCmd req.cwd)
  unfold phaseVerify
  split
  next s' heq =>
    rw [heq] at hb
    refine ⟨?_, ?_, ?_⟩
    · rw [(timeoutResult_exec r s' req.cwd origin true).2.1,
          (timeoutResult_exec r s' req.cwd origin true).2.2]
      exact hb
    · exact fun _ _ => ⟨(timeoutResult_res r s' req.cwd origin true).1,
        (timeoutResult_res r s' req.cwd origin true).2.1⟩
    · exact fun _ => (timeoutResult_res r s' req.cwd origin true).2.2
  next o s' heq =>
    rw [heq] at hb
    obtain ⟨hc, _⟩ := invoke_completed_state r s _ o s' heq
    split
    · refine ⟨?_, ?_, ?_⟩
      · rw [(rollbackTo_exec r s' req.cwd origin .repositoryStateError
              o.stderr).2.1,
            (rollbackTo_exec r s' req.cwd origin .repositoryStateError
              o.stderr).2.2]
        exact hb
      · intro h0 hcanc
        rw [(rollbackTo_exec r s' req.cwd origin .repositoryStateError
              o.stderr).1, hc, h0] at hcanc
        exact absurd hcanc (by simp)
      · exact fun _ =>
          (rollbackTo_res r s' req.cwd origin .repositoryStateError
            o.stderr).2.2
    · split
      · split
        · refine ⟨hb, ?_, ?_⟩
          · intro h0 hcanc
            rw [hc, h0] at hcanc
            exact absurd hcanc (by simp)
          · intro hf
            exact absurd hf (by simp [okResult])
        · refine ⟨?_, ?_, ?_⟩
          · rw [(rollbackTo_exec r s' req.cwd origin .checkoutError
                  "verification mismatch").2.1,
                (rollbackTo_exec r s' req.cwd origin .checkoutError
                  "verification mismatch").2.2]
            exact hb
          · intro h0 hcanc
            rw [(rollbackTo_exec r s' req.cwd origin .checkoutError
                  "verification mismatch").1, hc, h0] at hcanc
            exact absurd hcanc (by simp)
          · exact fun _ =>
              (rollbackTo_res r s' req.cwd origin .checkoutError
                "verification mismatch").2.2
      · refine ⟨hb, ?_, ?_⟩
        · intro h0 hcanc
          rw [hc, h0] at hcanc
          exact absurd hcanc (by simp)
        · intro hf
          exact absurd hf (by simp [okResult])

theorem phaseHealth_spec (r : Runner σ) (req : UpdateRequest) (s : Exec σ)
    (origin : String) (tc : Option String) :
    ((phaseHealth r req s origin tc).2.elapsed +
       (phaseHealth r req s origin tc).2.remaining =
       s.elapsed + s.remaining) ∧
    (s.cancelled = false →
      (phaseHealth r req s origin tc).2.cancelled = true →
      (phaseHealth r req s origin tc).1.status = .error ∧
      (phaseHealth r req s origin tc).1.failure = some .timeoutError) ∧
    ((phaseHealth r req s origin tc).1.failure = some .timeoutError →
      (phaseHealth r req s origin tc).1.rollbackAttempted = true) := by
  have hb := invoke_budget r s doctorCmd
  unfold phaseHealth
  split
  next s' heq =>
    rw [heq] at hb
    refine ⟨?_, ?_, ?_⟩
    · rw [(timeoutResult_exec r s' req.cwd origin true).2.1,
          (timeoutResult_exec r s' req.cwd origin true).2.2]
      exact hb
    · exact fun _ _ => ⟨(timeoutResult_res r s' req.cwd origin true).1,
        (timeoutResult_res r s' req.cwd origin true).2.1⟩
    · exact fun _ => (timeoutResult_res r s' req.cwd origin true).2.2
  next o s' heq =>
    rw [heq] at hb
    obtain ⟨hc, _⟩ := invoke_completed_state r s _ o s' heq
    split
    · refine ⟨?_, ?_, ?_⟩
      · rw [(rollbackTo_exec r s' req.cwd origin .healthCheckError
              o.stderr).2.1,
            (rollbackTo_exec r s' req.cwd origin .healthCheckError
              o.stderr).2.2]
        exact hb
      · intro h0 hcanc
        rw [(rollbackTo_exec r s' req.cwd origin .healthCheckError
              o.stderr).1, hc, h0] at hcanc
        exact absurd hcanc (by simp)
      · exact fun _ =>
          (rollbackTo_res r s' req.cwd origin .healthCheckError o.stderr).2.2
    · obtain ⟨nb, nT, nM⟩ := phaseVerify_spec r req s' origin tc
      refine ⟨by rw [nb]; exact hb, ?_, nM⟩
      intro h0 hcanc
      exact nT (by rw [hc, h0]) hcanc

theorem phaseBuild_spec (r : Runner σ) (req : UpdateRequest) (s : Exec σ)
    (origin : String) (tc : Option String) :
    ((phaseBuild r req s origin tc).2.elapsed +
       (phaseBuild r req s origin tc).2.remaining =
       s.elapsed + s.remaining) ∧
    (s.cancelled = false →
      (phaseBuild r req s origin tc).2.cancelled = true →
      (phaseBuild r req s origin tc).1.status = .error ∧
      (phaseBuild r req s origin tc).1.failure = some .timeoutError) ∧
    ((phaseBuild r req s origin tc).1.failure = some .timeoutError →
      (phaseBuild r req s origin tc).1.rollbackAttempted = true) := by
  have hb := invoke_budget r s installCmd
  unfold phaseBuild
  split
  next s' heq =>
    rw [heq] at hb
    refine ⟨?_, ?_, ?_⟩
    · rw [(timeoutResult_exec r s' req.cwd origin true).2.1,
          (timeoutResult_exec r s' req.cwd origin true).2.2]
      exact hb
    · exact fun _ _ => ⟨(timeoutResult_res r s' req.cwd origin true).1,
        (timeoutResult_res r s' req.cwd origin true).2.1⟩
    · exact fun _ => (timeoutResult_res r s' req.cwd origin true).2.2
  next o1 s1 heq =>
    rw [heq] at hb
    obtain ⟨hc1, _⟩ := invoke_completed_state r s _ o1 s1 heq
    split
    · refine ⟨?_, ?_, ?_⟩
      · rw [(rollbackTo_exec r s1 req.cwd origin .buildError o1.stderr).2.1,
            (rollbackTo_exec r s1 req.cwd origin .buildError o1.stderr).2.2]
        exact hb
      · intro h0 hcanc
        rw [(rollbackTo_exec r s1 req.cwd origin .buildError o1.stderr).1,
            hc1, h0] at hcanc
        exact absurd hcanc (by simp)
      · exact fun _ =>
          (rollbackTo_res r s1 req.cwd origin .buildError o1.stderr).2.2
    · have hb2 := invoke_budget r s1 buildCmd
      split
      next s' heq2 =>
        rw [heq2] at hb2
        refine ⟨?_, ?_, ?_⟩
        · rw [(timeoutResult_exec r s' req.cwd origin true).2.1,
              (timeoutResult_exec r s' req.cwd origin true).2.2]
          exact hb2.trans hb
        · exact fun _ _ => ⟨(timeoutResult_res r s' req.cwd origin true).1,
            (timeoutResult_res r s' req.cwd origin true).2.1⟩
        · exact fun _ => (timeoutResult_res r s' req.cwd origin true).2.2
      next o2 s2 heq2 =>
        rw [heq2] at hb2
        obtain ⟨hc2, _⟩ := invoke_completed_state r s1 _ o2 s2 heq2
        split
        · refine ⟨?_, ?_, ?_⟩
          · rw [(rollbackTo_exec r s2 req.cwd origin .buildError
                  o2.stderr).2.1,
                (rollbackTo_exec r s2 req.cwd origin .buildError
                  o2.stderr).2.2]
            exact hb2.trans hb
          · intro h0 hcanc
            rw [(rollbackTo_exec r s2 req.cwd origin .buildError
                  o2.stderr).1, hc2, hc1, h0] at hcanc
            exact absurd hcanc (by simp)
          · exact fun _ =>
              (rollbackTo_res r s2 req.cwd origin .buildError o2.stderr).2.2
        · have hb3 := invoke_budget r s2 uiBuildCmd
          split
          next s' heq3 =>
            rw [heq3] at hb3
            refine ⟨?_, ?_, ?_⟩
            · rw [(timeoutResult_exec r s' req.cwd origin true).2.1,
                  (timeoutResult_exec r s' req.cwd origin true).2.2]
              exact (hb3.trans hb2).trans hb
            · exact fun _ _ => ⟨(timeoutResult_res r s' req.cwd origin true).1,
                (timeoutResult_res r s' req.cwd origin true).2.1⟩
            · exact fun _ => (timeoutResult_res r s' req.cwd origin true).2.2
          next o3 s3 heq3 =>
            rw [heq3] at hb3
            obtain ⟨hc3, _⟩ := invoke_completed_state r s2 _ o3 s3 heq3
            split
            · refine ⟨?_, ?_, ?_⟩
              · rw [(rollbackTo_exec r s3 req.cwd origin .buildError
                      o3.stderr).2.1,
                    (rollbackTo_exec r s3 req.cwd origin .buildError
                      o3.stderr).2.2]
                exact (hb3.trans hb2).trans hb
              · intro h0 hcanc
                rw [(rollbackTo_exec r s3 req.cwd origin .buildError
                      o3.stderr).1, hc3, hc2, hc1, h0] at hcanc
                exact absurd hcanc (by simp)
              · exact fun _ =>
                  (rollbackTo_res r s3 req.cwd origin .buildError
                    o3.stderr).2.2
            · obtain ⟨nb, nT, nM⟩ := phaseHealth_spec r req s3 origin tc
              refine ⟨by rw [nb]; exact (hb3.trans hb2).trans hb, ?_, nM⟩
              intro h0 hcanc
              exact nT (by rw [hc3, hc2, hc1, h0]) hcanc

theorem phaseRestore_spec (r : Runner σ) (req : UpdateRequest) (s : Exec σ)
    (origin : String) (tc : Option String) :
    ((phaseRestore r req s origin tc).2.elapsed +
       (phaseRestore r req s origin tc).2.remaining =
       s.elapsed + s.remaining) ∧
    (s.cancelled = false →
      (phaseRestore r req s origin tc).2.cancelled = true →
      (phaseRestore r req s origin tc).1.status = .error ∧
      (phaseRestore r req s origin tc).1.failure = some .timeoutError) ∧
    ((phaseRestore r req s origin tc).1.failure = some .timeoutError →
      (phaseRestore r req s origin tc).1.rollbackAttempted = true) := by
  have hb := invoke_budget r s (isTrackedAtCommitCmd req.cwd "HEAD"
    protectedEntry)
  unfold phaseRestore
  split
  next s' heq =>
    rw [heq] at hb
    refine ⟨?_, ?_, ?_⟩
    · rw [(timeoutResult_exec r s' req.cwd origin true).2.1,
          (timeoutResult_exec r s' req.cwd origin true).2.2]
      exact hb
    · exact fun _ _ => ⟨(timeoutResult_res r s' req.cwd origin true).1,
        (timeoutResult_res r s' req.cwd origin true).2.1⟩
    · exact fun _ => (timeoutResult_res r s' req.cwd origin true).2.2
  next o s' heq =>
    rw [heq] at hb
    obtain ⟨hc, _⟩ := invoke_completed_state r s _ o s' heq
    split
    · have hb2 := invoke_budget r s' (restoreCmd req.cwd)
      split
      next s2 heq2 =>
        rw [heq2] at hb2
        refine ⟨?_, ?_, ?_⟩
        · rw [(timeoutResult_exec r s2 req.cwd origin true).2.1,
              (timeoutResult_exec r s2 req.cwd origin true).2.2]
          exact hb2.trans hb
        · exact fun _ _ => ⟨(timeoutResult_res r s2 req.cwd origin true).1,
            (timeoutResult_res r s2 req.cwd origin true).2.1⟩
        · exact fun _ => (timeoutResult_res r s2 req.cwd origin true).2.2
      next o2 s2 heq2 =>
        rw [heq2] at hb2
        obtain ⟨hc2, _⟩ := invoke_completed_state r s' _ o2 s2 heq2
        split
        · refine ⟨?_, ?_, ?_⟩
          · rw [(rollbackTo_exec r s2 req.cwd origin .assetRestoreError
                  o2.stderr).2.1,
                (rollbackTo_exec r s2 req.cwd origin .assetRestoreError
                  o2.stderr).2.2]
            exact hb2.trans hb
          · intro h0 hcanc
            rw [(rollbackTo_exec r s2 req.cwd origin .assetRestoreError
                  o2.stderr).1, hc2, hc, h0] at hcanc
            exact absurd hcanc (by simp)
          · exact fun _ =>
              (rollbackTo_res r s2 req.cwd origin .assetRestoreError
                o2.stderr).2.2
        · obtain ⟨nb, nT, nM⟩ := phaseBuild_spec r req s2 origin tc
          refine ⟨by rw [nb]; exact hb2.trans hb, ?_, nM⟩
          intro h0 hcanc
          exact nT (by rw [hc2, hc, h0]) hcanc
    · obtain ⟨nb, nT, nM⟩ := phaseBuild_spec r req s' origin tc
      refine ⟨by rw [nb]; exact hb, ?_, nM⟩
      intro h0 hcanc
      exact nT (by rw [hc, h0]) hcanc

theorem phaseCheckout_spec (r : Runner σ) (req : UpdateRequest) (s : Exec σ)
    (origin targetTag : String) (tc : Option String) :
    ((phaseCheckout r req s origin targetTag tc).2.elapsed +
       (phaseCheckout r req s origin targetTag tc).2.remaining =
       s.elapsed + s.remaining) ∧
    (s.cancelled = false →
      (phaseCheckout r req s origin targetTag tc).2.cancelled = true →
      (phaseCheckout r req s origin targetTag tc).1.status = .error ∧
      (phaseCheckout r req s origin targetTag tc).1.failure =
        some .timeoutError) ∧
    ((phaseCheckout r req s origin targetTag tc).1.failure =
        some .timeoutError →
      (phaseCheckout r req s origin targetTag tc).1.rollbackAttempted =
        true) := by
  have hb := invoke_budget r s (checkoutDetachCmd req.cwd targetTag)
  unfold phaseCheckout
  split
  next s' heq =>
    rw [heq] at hb
    refine ⟨?_, ?_, ?_⟩
    · rw [(timeoutResult_exec r s' req.cwd origin true).2.1,
          (timeoutResult_exec r s' req.cwd origin true).2.2]
      exact hb
    · exact fun _ _ => ⟨(timeoutResult_res r s' req.cwd origin true).1,
        (timeoutResult_res r s' req.cwd origin true).2.1⟩
    · exact fun _ => (timeoutResult_res r s' req.cwd origin true).2.2
  next o s' heq =>
    rw [heq] at hb
    obtain ⟨hc, _⟩ := invoke_completed_state r s _ o s' heq
    split
    · refine ⟨hb, ?_, ?_⟩
      · intro h0 hcanc
        rw [hc, h0] at hcanc
        exact absurd hcanc (by simp)
      · intro hf
        exact absurd hf (by simp [errorResult])
    · obtain ⟨nb, nT, nM⟩ := phaseRestore_spec r req s' origin tc
      refine ⟨by rw [nb]; exact hb, ?_, nM⟩
      intro h0 hcanc
      exact nT (by rw [hc, h0]) hcanc

theorem phasePlan_spec (r : Runner σ) (req : UpdateRequest) (s : Exec σ)
    (origin : String) :
    ((phasePlan r req s origin).2.elapsed +
       (phasePlan r req s origin).2.remaining = s.elapsed + s.remaining) ∧
    (s.cancelled = false →
      (phasePlan r req s origin).2.cancelled = true →
      (phasePlan r req s origin).1.status = .error ∧
      (phasePlan r req s origin).1.failure = some .timeoutError) ∧
    (s.calls.all (fun c => !isMutatingCall c) = true →
      (phasePlan r req s origin).1.failure = some .timeoutError →
      (phasePlan r req s origin).1.rollbackAttempted = false →
      (phasePlan r req s origin).2.calls.all
        (fun c => !isMutatingCall c) = true) := by
  have hb := invoke_budget r s (tagListCmd req.cwd)
  unfold phasePlan
  split
  next s' heq =>
    rw [heq] at hb
    refine ⟨?_, ?_, ?_⟩
    · rw [(timeoutResult_exec r s' req.cwd origin false).2.1,
          (timeoutResult_exec r s' req.cwd origin false).2.2]
      exact hb
    · exact fun _ _ => ⟨(timeoutResult_res r s' req.cwd origin false).1,
        (timeoutResult_res r s' req.cwd origin false).2.1⟩
    · intro hall _ _
      rcases invoke_timedOut_calls r s _ s' heq with hcl | hcl
      · rw [timeoutResult_calls_false, hcl]
        exact hall
      · rw [timeoutResult_calls_false, hcl]
        exact all_nonmut_append _ _ hall (isMutatingCall_tagList _)
  next o s' heq =>
    rw [heq] at hb
    obtain ⟨hc, hcalls⟩ := invoke_completed_state r s _ o s' heq
    have hall' : ∀ _ : s.calls.all (fun c => !isMutatingCall c) = true,
        s'.calls.all (fun c => !isMutatingCall c) = true := fun hall => by
      rw [hcalls]
      exact all_nonmut_append _ _ hall (isMutatingCall_tagList _)
    split
    · refine ⟨hb, ?_, ?_⟩
      · intro h0 hcanc
        rw [hc, h0] at hcanc
        exact absurd hcanc (by simp)
      · intro _ hf _
        exact absurd hf (by simp [errorResult])
    · split
      next t rest hfilter =>
        have hb2 := invoke_budget r s' (revParseRefCmd req.cwd t)
        split
        next s2 heq2 =>
          rw [heq2] at hb2
          refine ⟨?_, ?_, ?_⟩
          · rw [(timeoutResult_exec r s2 req.cwd origin false).2.1,
                (timeoutResult_exec r s2 req.cwd origin false).2.2]
            exact hb2.trans hb
          · exact fun _ _ => ⟨(timeoutResult_res r s2 req.cwd origin false).1,
              (timeoutResult_res r s2 req.cwd origin false).2.1⟩
          · intro hall _ _
            rcases invoke_timedOut_calls r s' _ s2 heq2 with hcl | hcl
            · rw [timeoutResult_calls_false, hcl]
              exact hall' hall
            · rw [timeoutResult_calls_false, hcl]
              exact all_nonmut_append _ _ (hall' hall)
                (isMutatingCall_revRef _ _)
        next oR s2 heq2 =>
          rw [heq2] at hb2
          obtain ⟨hc2, _⟩ := invoke_completed_state r s' _ oR s2 heq2
          split
          · split
            · refine ⟨hb2.trans hb, ?_, ?_⟩
              · intro h0 hcanc
                rw [hc2, hc, h0] at hcanc
                exact absurd hcanc (by simp)
              · intro _ hf _
                exact absurd hf (by simp [noopResult])
            · obtain ⟨nb, nT, nM⟩ := phaseCheckout_spec r req s2 origin t
                (some (strTrim oR.stdout))
              refine ⟨by rw [nb]; exact hb2.trans hb, ?_, ?_⟩
              · intro h0 hcanc
                exact nT (by rw [hc2, hc, h0]) hcanc
              · intro _ hf hrb
                rw [nM hf] at hrb
                exact absurd hrb (by simp)
          · obtain ⟨nb, nT, nM⟩ := phaseCheckout_spec r req s2 origin t none
            refine ⟨by rw [nb]; exact hb2.trans hb, ?_, ?_⟩
            · intro h0 hcanc
              exact nT (by rw [hc2, hc, h0]) hcanc
            · intro _ hf hrb
              rw [nM hf] at hrb
              exact absurd hrb (by simp)
      next hfilter =>
        split
        next t hsingle =>
          have hb2 := invoke_budget r s' (revParseRefCmd req.cwd t)
          split
          next s2 heq2 =>
            rw [heq2] at hb2
            refine ⟨?_, ?_, ?_⟩
            · rw [(timeoutResult_exec r s2 req.cwd origin false).2.1,
                  (timeoutResult_exec r s2 req.cwd origin false).2.2]
              exact hb2.trans hb
            · exact fun _ _ =>
                ⟨(timeoutResult_res r s2 req.cwd origin false).1,
                 (timeoutResult_res r s2 req.cwd origin false).2.1⟩
            · intro hall _ _
              rcases invoke_timedOut_calls r s' _ s2 heq2 with hcl | hcl
              · rw [timeoutResult_calls_false, hcl]
                exact hall' hall
              · rw [timeoutResult_calls_false, hcl]
                exact all_nonmut_append _ _ (hall' hall)
                  (isMutatingCall_revRef _ _)
          next oR s2 heq2 =>
            rw [heq2] at hb2
            obtain ⟨hc2, _⟩ := invoke_completed_state r s' _ oR s2 heq2
            split
            · refine ⟨hb2.trans hb, ?_, ?_⟩
              · intro h0 hcanc
                rw [hc2, hc, h0] at hcanc
                exact absurd hcanc (by simp)
              · intro _ hf _
                exact absurd hf (by simp [noopResult])
            · refine ⟨hb2.trans hb, ?_, ?_⟩
              · intro h0 hcanc
                rw [hc2, hc, h0] at hcanc
                exact absurd hcanc (by simp)
              · intro _ hf _
                exact absurd hf (by simp [errorResult])
        next hother =>
          refine ⟨hb, ?_, ?_⟩
          · intro h0 hcanc
            rw [hc, h0] at hcanc
            exact absurd hcanc (by simp)
          · intro _ hf _
            exact absurd hf (by simp [errorResult])

theorem phaseFetch_spec (r : Runner σ) (req : UpdateRequest) (s : Exec σ)
    (origin : String) :
    ((phaseFetch r req s origin).2.elapsed +
       (phaseFetch r req s origin).2.remaining = s.elapsed + s.remaining) ∧
    (s.cancelled = false →
      (phaseFetch r req s origin).2.cancelled = true →
      (phaseFetch r req s origin).1.status = .error ∧
      (phaseFetch r req s origin).1.failure = some .timeoutError) ∧
    (s.calls.all (fun c => !isMutatingCall c) = true →
      (phaseFetch r req s origin).1.failure = some .timeoutError →
      (phaseFetch r req s origin).1.rollbackAttempted = false →
      (phaseFetch r req s origin).2.calls.all
        (fun c => !isMutatingCall c) = true) := by
  have hb := invoke_budget r s (fetchCmd req.cwd)
  unfold phaseFetch
  split
  next s' heq =>
    rw [heq] at hb
    refine ⟨?_, ?_, ?_⟩
    · rw [(timeoutResult_exec r s' req.cwd origin false).2.1,
          (timeoutResult_exec r s' req.cwd origin false).2.2]
      exact hb
    · exact fun _ _ => ⟨(timeoutResult_res r s' req.cwd origin false).1,
        (timeoutResult_res r s' req.cwd origin false).2.1⟩
    · intro hall _ _
      rcases invoke_timedOut_calls r s _ s' heq with hcl | hcl
      · rw [timeoutResult_calls_false, hcl]
        exact hall
      · rw [timeoutResult_calls_false, hcl]
        exact all_nonmut_append _ _ hall (isMutatingCall_fetch _)
  next o s' heq =>
    rw [heq] at hb
    obtain ⟨hc, hcalls⟩ := invoke_completed_state r s _ o s' heq
    have hall' : ∀ _ : s.calls.all (fun c => !isMutatingCall c) = true,
        s'.calls.all (fun c => !isMutatingCall c) = true := fun hall => by
      rw [hcalls]
      exact all_nonmut_append _ _ hall (isMutatingCall_fetch _)
    split
    · obtain ⟨nb, nT, nM⟩ := phasePlan_spec r req s' origin
      refine ⟨by rw [nb]; exact hb, ?_, ?_⟩
      · intro h0 hcanc
        exact nT (by rw [hc, h0]) hcanc
      · intro hall hf hrb
        exact nM (hall' hall) hf hrb
    · have hb2 := invoke_budget r s' (fetchCmd req.cwd)
      split
      next s2 heq2 =>
        rw [heq2] at hb2
        refine ⟨?_, ?_, ?_⟩
        · rw [(timeoutResult_exec r s2 req.cwd origin false).2.1,
              (timeoutResult_exec r s2 req.cwd origin false).2.2]
          exact hb2.trans hb
        · exact fun _ _ => ⟨(timeoutResult_res r s2 req.cwd origin false).1,
            (timeoutResult_res r s2 req.cwd origin false).2.1⟩
        · intro hall _ _
          rcases invoke_timedOut_calls r s' _ s2 heq2 with hcl | hcl
          · rw [timeoutResult_calls_false, hcl]
            exact hall' hall
          · rw [timeoutResult_calls_false, hcl]
            exact all_nonmut_append _ _ (hall' hall) (isMutatingCall_fetch _)
      next o2 s2 heq2 =>
        rw [heq2] at hb2
        obtain ⟨hc2, hcalls2⟩ := invoke_completed_state r s' _ o2 s2 heq2
        split
        · obtain ⟨nb, nT, nM⟩ := phasePlan_spec r req s2 origin
          refine ⟨by rw [nb]; exact hb2.trans hb, ?_, ?_⟩
          · intro h0 hcanc
            exact nT (by rw [hc2, hc, h0]) hcanc
          · intro hall hf hrb
            refine nM ?_ hf hrb
            rw [hcalls2]
            exact all_nonmut_append _ _ (hall' hall) (isMutatingCall_fetch _)
        · refine ⟨hb2.trans hb, ?_, ?_⟩
          · intro h0 hcanc
            rw [hc2, hc, h0] at hcanc
            exact absurd hcanc (by simp)
          · intro _ hf _
            exact absurd hf (by simp [errorResult])

theorem phaseClean_spec (r : Runner σ) (req : UpdateRequest) (s : Exec σ)
    (origin : String) :
    ((phaseClean r req s origin).2.elapsed +
       (phaseClean r req s origin).2.remaining = s.elapsed + s.remaining) ∧
    (s.cancelled = false →
      (phaseClean r req s origin).2.cancelled = true →
      (phaseClean r req s origin).1.status = .error ∧
      (phaseClean r req s origin).1.failure = some .timeoutError) ∧
    (s.calls.all (fun c => !isMutatingCall c) = true →
      (phaseClean r req s origin).1.failure = some .timeoutError →
      (phaseClean r req s origin).1.rollbackAttempted = false →
      (phaseClean r req s origin).2.calls.all
        (fun c => !isMutatingCall c) = true) := by
  have hb := invoke_budget r s (statusCmd req.cwd)
  unfold phaseClean
  split
  next s' heq =>
    rw [heq] at hb
    refine ⟨?_, ?_, ?_⟩
    · rw [(timeoutResult_exec r s' req.cwd origin false).2.1,
          (timeoutResult_exec r s' req.cwd origin false).2.2]
      exact hb
    · exact fun _ _ => ⟨(timeoutResult_res r s' req.cwd origin false).1,
        (timeoutResult_res r s' req.cwd origin false).2.1⟩
    · intro hall _ _
      rcases invoke_timedOut_calls r s _ s' heq with hcl | hcl
      · rw [timeoutResult_calls_false, hcl]
        exact hall
      · rw [timeoutResult_calls_false, hcl]
        exact all_nonmut_append _ _ hall (isMutatingCall_status _)
  next o s' heq =>
    rw [heq] at hb
    obtain ⟨hc, hcalls⟩ := invoke_completed_state r s _ o s' heq
    split
    · refine ⟨hb, ?_, ?_⟩
      · intro h0 hcanc
        rw [hc, h0] at hcanc
        exact absurd hcanc (by simp)
      · intro _ hf _
        exact absurd hf (by simp [errorResult])
    · obtain ⟨nb, nT, nM⟩ := phaseFetch_spec r req s' origin
      refine ⟨by rw [nb]; exact hb, ?_, ?_⟩
      · intro h0 hcanc
        exact nT (by rw [hc, h0]) hcanc
      · intro hall hf hrb
        refine nM ?_ hf hrb
        rw [hcalls]
        exact all_nonmut_append _ _ hall (isMutatingCall_status _)

theorem phaseCurrent_spec (r : Runner σ) (req : UpdateRequest) (s : Exec σ) :
    ((phaseCurrent r req s).2.elapsed +
       (phaseCurrent r req s).2.remaining = s.elapsed + s.remaining) ∧
    (s.cancelled = false →
      (phaseCurrent r req s).2.cancelled = true →
      (phaseCurrent r req s).1.status = .error ∧
      (phaseCurrent r req s).1.failure = some .timeoutError) ∧
    (s.calls.all (fun c => !isMutatingCall c) = true →
      (phaseCurrent r req s).1.failure = some .timeoutError →
      (phaseCurrent r req s).1.rollbackAttempted = false →
      (phaseCurrent r req s).2.calls.all
        (fun c => !isMutatingCall c) = true) := by
  have hb := invoke_budget r s (revParseHeadCmd req.cwd)
  unfold phaseCurrent
  split
  next s' heq =>
    rw [heq] at hb
    refine ⟨?_, ?_, ?_⟩
    · rw [(timeoutResult_exec r s' req.cwd "" false).2.1,
          (timeoutResult_exec r s' req.cwd "" false).2.2]
      exact hb
    · exact fun _ _ => ⟨(timeoutResult_res r s' req.cwd "" false).1,
        (timeoutResult_res r s' req.cwd "" false).2.1⟩
    · intro hall _ _
      rcases invoke_timedOut_calls r s _ s' heq with hcl | hcl
      · rw [timeoutResult_calls_false, hcl]
        exact hall
      · rw [timeoutResult_calls_false, hcl]
        exact all_nonmut_append _ _ hall (isMutatingCall_revHead _)
  next o s' heq =>
    rw [heq] at hb
    obtain ⟨hc, hcalls⟩ := invoke_completed_state r s _ o s' heq
    split
    · refine ⟨hb, ?_, ?_⟩
      · intro h0 hcanc
        rw [hc, h0] at hcanc
        exact absurd hcanc (by simp)
      · intro _ hf _
        exact absurd hf (by simp [errorResult])
    · obtain ⟨nb, nT, nM⟩ := phaseClean_spec r req s' (strTrim o.stdout)
      refine ⟨by rw [nb]; exact hb, ?_, ?_⟩
      · intro h0 hcanc
        exact nT (by rw [hc, h0]) hcanc
      · intro hall hf hrb
        refine nM ?_ hf hrb
        rw [hcalls]
        exact all_nonmut_append _ _ hall (isMutatingCall_revHead _)

theorem phaseRoot_spec (r : Runner σ) (req : UpdateRequest) (s : Exec σ) :
    ((phaseRoot r req s).2.elapsed +
       (phaseRoot r req s).2.remaining = s.elapsed + s.remaining) ∧
    (s.cancelled = false →
      (phaseRoot r req s).2.cancelled = true →
      (phaseRoot r req s).1.status = .error ∧
      (phaseRoot r req s).1.failure = some .timeoutError) ∧
    (s.calls.all (fun c => !isMutatingCall c) = true →
      (phaseRoot r req s).1.failure = some .timeoutError →
      (phaseRoot r req s).1.rollbackAttempted = false →
      (phaseRoot r req s).2.calls.all
        (fun c => !isMutatingCall c) = true) := by
  have hb := invoke_budget r s (showToplevelCmd req.cwd)
  unfold phaseRoot
  split
  next s' heq =>
    rw [heq] at hb
    refine ⟨?_, ?_, ?_⟩
    · rw [(timeoutResult_exec r s' req.cwd "" false).2.1,
          (timeoutResult_exec r s' req.cwd "" false).2.2]
      exact hb
    · exact fun _ _ => ⟨(timeoutResult_res r s' req.cwd "" false).1,
        (timeoutResult_res r s' req.cwd "" false).2.1⟩
    · intro hall _ _
      rcases invoke_timedOut_calls r s _ s' heq with hcl | hcl
      · rw [timeoutResult_calls_false, hcl]
        exact hall
      · rw [timeoutResult_calls_false, hcl]
        exact all_nonmut_append _ _ hall (isMutatingCall_toplevel _)
  next o s' heq =>
    rw [heq] at hb
    obtain ⟨hc, hcalls⟩ := invoke_completed_state r s _ o s' heq
    split
    · refine ⟨hb, ?_, ?_⟩
      · intro h0 hcanc
        rw [hc, h0] at hcanc
        exact absurd hcanc (by simp)
      · intro _ hf _
        exact absurd hf (by simp [errorResult])
    · obtain ⟨nb, nT, nM⟩ := phaseCurrent_spec r req s'
      refine ⟨by rw [nb]; exact hb, ?_, ?_⟩
      · intro h0 hcanc
        exact nT (by rw [hc, h0]) hcanc
      · intro hall hf hrb
        refine nM ?_ hf hrb
        rw [hcalls]
        exact all_nonmut_append _ _ hall (isMutatingCall_toplevel _)

/-- C5: the time-budget model — a run in which some step was cancelled (or
refused a start) for exceeding the budget ends as `error` of kind
`TimeoutError`; the elapsed budgeted time never exceeds the configured
timeout (the cancelled step is stopped at the deadline, so no budgeted work
outlives the call); a `TimeoutError` without rollback can only happen while
no mutating command had run; a step is never started with no budget left;
and a step whose latency exceeds the remaining budget is cancelled at the
deadline, exhausting the budget. -/
theorem timeout_budget_enforcement (σ : Type) (r : Runner σ)
    (req : UpdateRequest) (env₀ : σ) :
    ((runGatewayUpdate r req env₀).2.cancelled = true →
      (runGatewayUpdate r req env₀).1.status = .error ∧
      (runGatewayUpdate r req env₀).1.failure = some .timeoutError) ∧
    ((runGatewayUpdate r req env₀).2.elapsed +
       (runGatewayUpdate r req env₀).2.remaining = req.timeoutMs) ∧
    ((runGatewayUpdate r req env₀).1.failure = some .timeoutError →
      (runGatewayUpdate r req env₀).1.rollbackAttempted = false →
      ((runGatewayUpdate r req env₀).2.calls.all
        (fun c => !isMutatingCall c)) = true) ∧
    (∀ (s : Exec σ) (a : List String), s.remaining = 0 →
      invoke r s a = (.timedOut, { s with cancelled := true })) ∧
    (∀ (s : Exec σ) (a : List String), s.remaining ≠ 0 →
      s.remaining < r.dur s.env a →
      (invoke r s a).1 = .timedOut ∧
      (invoke r s a).2.elapsed = s.elapsed + s.remaining ∧
      (invoke r s a).2.remaining = 0) := by
  obtain ⟨rb, rT, rM⟩ :=
    phaseRoot_spec r req ⟨env₀, [], req.timeoutMs, 0, false⟩
  refine ⟨fun hcanc => rT rfl hcanc, ?_, fun hf hrb => rM rfl hf hrb,
    ?_, ?_⟩
  · rw [runGatewayUpdate]
    rw [rb]
    simp
  · intro s a h
    simp [invoke, h]
  · intro s a h1 h2
    simp [invoke, h1, h2, Nat.not_lt.mpr (Nat.le_of_lt h2)]

/-- Witness for C5: a world whose commands take a minute against a 5-second
budget cancels the very first step and reports `TimeoutError` without
rollback, having issued nothing mutating. -/
theorem timeout_budget_enforcement_witness :
    ((runGatewayUpdate WorldRunner stdReq slowWorld).1.status = .error ∧
     (runGatewayUpdate WorldRunner stdReq slowWorld).1.failure =
       some .timeoutError) ∧
    ((runGatewayUpdate WorldRunner stdReq slowWorld).2.calls.all
      (fun c => !isMutatingCall c)) = true ∧
    invoke WorldRunner ⟨slowWorld, [], 0, 5000, false⟩ installCmd =
      (.timedOut, { env := slowWorld, calls := [], remaining := 0,
                    elapsed := 5000, cancelled := true }) ∧
    (invoke WorldRunner ⟨slowWorld, [], 5000, 0, false⟩ installCmd).1 =
      .timedOut :=
  ⟨(timeout_budget_enforcement World WorldRunner stdReq slowWorld).1
     (by decide),
   (timeout_budget_enforcement World WorldRunner stdReq slowWorld).2.2.1
     (by decide) (by decide),
   (timeout_budget_enforcement World WorldRunner stdReq slowWorld).2.2.2.1
     ⟨slowWorld, [], 0, 5000, false⟩ installCmd rfl,
   ((timeout_budget_enforcement World WorldRunner stdReq slowWorld).2.2.2.2
     ⟨slowWorld, [], 5000, 0, false⟩ installCmd (by decide) (by decide)).1⟩

end OpenClaw
